import Mathlib

/-!
# tokens/types.go : the build-transaction argument model

A shallow embedding of `src/tokens/types.go` (package `tokens`) and the
properties of its accessor layer on `BuildTxArgs`.

Modelling conventions.

* A Go pointer `*T` is `Ptr T = Option T`: `none` is `nil`, `some v` is a
  pointer to a cell holding `v`.  Cells are modelled by value.  The methods of
  this file only ever replace pointer-valued fields wholesale, they never write
  through a `*big.Int`, `*uint64`, ... cell, and the sub-variant pointers of
  `AllExtras` have four different types, so no two paths from one `BuildTxArgs`
  can alias a cell that a method writes.
* Machine integers are naturals (`uint32`, `uint64`) or integers (`int64`,
  `big.Int`); the only narrowing conversion, `uint32(nonce)`, is `% 2 ^ 32`.
* A method with a pointer receiver takes `Ptr BuildTxArgs`.  Every field
  selection through a pointer is an explicit `deref`, whose failure is the Go
  run-time panic "invalid memory address or nil pointer dereference".
* A method that assigns through its receiver returns the receiver after the
  call; a method whose body holds no assignment is a function of the receiver.
* `GetExtraArgs` is the one method whose result shares a cell with its
  receiver: the new `BuildTxArgs` holds the receiver's `*AllExtras`.  It is
  modelled on a `Memory` of cells with addresses, in which `Extra` is the
  address of an `AllExtras` cell; `Memory.valueAt` reads a receiver in memory
  as the value the other methods work on.
-/

namespace tokens

/-! ## Pointers and run-time failure -/

/-- Go pointer to a `T`: `none` is `nil`. -/
abbrev Ptr (α : Type) : Type := Option α

/-- Result of running a method body: a normal return, or the run-time panic
raised by selecting a field through a nil pointer. -/
inductive Outcome (α : Type) : Type where
  | ok (v : α) : Outcome α
  | nilDeref : Outcome α
deriving DecidableEq, Repr

/-- Sequencing of two steps; a panic in the first step aborts the second. -/
def Outcome.bind {α β : Type} (o : Outcome α) (f : α → Outcome β) : Outcome β :=
  match o with
  | .ok v => f v
  | .nilDeref => .nilDeref

instance : Monad Outcome where
  pure := Outcome.ok
  bind := Outcome.bind

/-- The method returned normally. -/
def Outcome.returns {α : Type} (o : Outcome α) : Bool :=
  match o with
  | .ok _ => true
  | .nilDeref => false

/-- Selecting through a pointer: panics on `nil`. -/
def deref {α : Type} (p : Ptr α) : Outcome α :=
  match p with
  | some v => .ok v
  | none => .nilDeref

/-! ## Data model -/

/-- Go `type SwapType uint32`. -/
abbrev SwapType : Type := Nat

/-- Constant `NoSwapType SwapType = iota`. -/
def NoSwapType : SwapType := 0
/-- Constant `SwapinType`. -/
def SwapinType : SwapType := 1
/-- Constant `SwapoutType`. -/
def SwapoutType : SwapType := 2

/-- Go `type SwapTxType uint32`. -/
abbrev SwapTxType : Type := Nat

/-- Constant `SwapinTx SwapTxType = iota`. -/
def SwapinTx : SwapTxType := 0
/-- Constant `SwapoutTx`. -/
def SwapoutTx : SwapTxType := 1
/-- Constant `P2shSwapinTx`. -/
def P2shSwapinTx : SwapTxType := 2

/-- Go `struct SwapInfo`; the defaults are the Go zero values. -/
structure SwapInfo where
  PairID : String := ""
  SwapID : String := ""
  SwapType : SwapType := 0
  TxType : SwapTxType := 0
  Bind : String := ""
  Identifier : String := ""
  Reswapping : Bool := false
deriving DecidableEq, Repr

/-- Go `struct EthExtraArgs`. -/
structure EthExtraArgs where
  Gas : Ptr Nat := none
  GasPrice : Ptr Int := none
  GasTipCap : Ptr Int := none
  GasFeeCap : Ptr Int := none
  Nonce : Ptr Nat := none
deriving DecidableEq, Repr

/-- Go `struct RippleExtra`; `Sequence` is a `*uint32`, `Fee` a `*int64`. -/
structure RippleExtra where
  Sequence : Ptr Nat := none
  Fee : Ptr Int := none
deriving DecidableEq, Repr

/-- Go `struct TerraExtra`; `Sequence` and `Gas` are `*uint64`. -/
structure TerraExtra where
  Sequence : Ptr Nat := none
  Fees : Ptr String := none
  Gas : Ptr Nat := none
deriving DecidableEq, Repr

/-- Go `struct BtcOutPoint`. -/
structure BtcOutPoint where
  Hash : String := ""
  Index : Nat := 0
deriving DecidableEq, Repr

/-- Go `struct BtcExtraArgs`. -/
structure BtcExtraArgs where
  RelayFeePerKb : Ptr Int := none
  ChangeAddress : Ptr String := none
  PreviousOutPoints : List (Ptr BtcOutPoint) := []
deriving DecidableEq, Repr

/-- Go `struct AllExtras`. -/
structure AllExtras where
  ReplaceNum : Nat := 0
  BtcExtra : Ptr BtcExtraArgs := none
  EthExtra : Ptr EthExtraArgs := none
  RippleExtra : Ptr RippleExtra := none
  TerraExtra : Ptr TerraExtra := none
deriving DecidableEq, Repr

/-- Go `[]byte`: `none` is the nil slice, `some bs` a non-nil slice holding the
bytes `bs`. -/
abbrev Bytes : Type := Option (List Nat)

/-- Go `struct BuildTxArgs`; the embedded `SwapInfo` is the field `SwapInfo`,
`Input` is a `*[]byte`. -/
structure BuildTxArgs where
  SwapInfo : SwapInfo := {}
  From : String := ""
  To : String := ""
  OriginFrom : String := ""
  OriginTxTo : String := ""
  Value : Ptr Int := none
  OriginValue : Ptr Int := none
  SwapValue : Ptr Int := none
  Memo : String := ""
  Input : Ptr Bytes := none
  Extra : Ptr AllExtras := none
deriving DecidableEq, Repr

/-! ## Memory -/

/-- Address of a cell in memory. -/
abbrev Addr : Type := Nat

/-- A `BuildTxArgs` as it lies in memory: the fields of `struct BuildTxArgs`,
with `Extra` the address of an `AllExtras` cell, or nil. -/
structure ArgsCell where
  SwapInfo : SwapInfo := {}
  From : String := ""
  To : String := ""
  OriginFrom : String := ""
  OriginTxTo : String := ""
  Value : Ptr Int := none
  OriginValue : Ptr Int := none
  SwapValue : Ptr Int := none
  Memo : String := ""
  Input : Ptr Bytes := none
  Extra : Ptr Addr := none
deriving DecidableEq, Repr

/-- The `AllExtras` cells and the `BuildTxArgs` cells in memory; the address of
a cell is its index. -/
structure Memory where
  extras : List AllExtras := []
  args : List ArgsCell := []
deriving DecidableEq, Repr

/-- Selecting through a `*BuildTxArgs`: panics on nil; an address outside
memory, which no pointer of the program holds, faults alike. -/
def Memory.loadArgs (m : Memory) (p : Ptr Addr) : Outcome ArgsCell :=
  match p with
  | none => .nilDeref
  | some addr =>
    match m.args[addr]? with
    | some c => .ok c
    | none => .nilDeref

/-- Selecting through a `*AllExtras`. -/
def Memory.loadExtras (m : Memory) (p : Ptr Addr) : Outcome AllExtras :=
  match p with
  | none => .nilDeref
  | some addr =>
    match m.extras[addr]? with
    | some x => .ok x
    | none => .nilDeref

/-- The fields of a cell with the content `x` of the `AllExtras` cell that
`Extra` points to (nil for a nil `Extra`). -/
def ArgsCell.value (c : ArgsCell) (x : Ptr AllExtras) : BuildTxArgs :=
  { SwapInfo := c.SwapInfo, From := c.From, To := c.To, OriginFrom := c.OriginFrom,
    OriginTxTo := c.OriginTxTo, Value := c.Value, OriginValue := c.OriginValue,
    SwapValue := c.SwapValue, Memo := c.Memo, Input := c.Input, Extra := x }

/-- The value a `*BuildTxArgs` stands for: nil, or the fields of its cell with
the `AllExtras` cell that `Extra` points to read out. -/
def Memory.valueAt (m : Memory) (p : Ptr Addr) : Outcome (Ptr BuildTxArgs) :=
  match p with
  | none => .ok none
  | some addr =>
    match m.loadArgs (some addr) with
    | .nilDeref => .nilDeref
    | .ok c =>
      match c.Extra with
      | none => .ok (some (c.value none))
      | some xa =>
        match m.loadExtras (some xa) with
        | .nilDeref => .nilDeref
        | .ok x => .ok (some (c.value (some x)))

/-! ## Accessors of `BuildTxArgs`

The short-circuit conditions `p != nil && p.f != nil` and
`p == nil || p.f == nil` are written as the nested tests they abbreviate: the
right operand, which selects through `p`, is evaluated only when the left
operand did not already decide the condition. -/

/-- Go `func (args *BuildTxArgs) GetReplaceNum() uint64`. -/
def BuildTxArgs.GetReplaceNum (args : Ptr BuildTxArgs) : Outcome Nat := do
  let a ← deref args
  -- if args.Extra != nil { return args.Extra.ReplaceNum }
  if a.Extra.isSome then
    let x ← deref a.Extra
    return x.ReplaceNum
  return 0

/-- Go `func (args *BuildTxArgs) GetExtraArgs() *BuildTxArgs`: the address of
a new cell, a composite literal naming two fields, all others zero; `Extra` is
copied as the pointer it is. Returns the address and the memory after the
allocation. -/
def BuildTxArgs.GetExtraArgs (m : Memory) (args : Ptr Addr) : Outcome (Ptr Addr × Memory) := do
  let a ← m.loadArgs args
  -- return &BuildTxArgs{SwapInfo: args.SwapInfo, Extra: args.Extra}
  return (some m.args.length,
    { m with args := m.args ++ [{ SwapInfo := a.SwapInfo, Extra := a.Extra }] })

/-- Go `func (args *BuildTxArgs) GetTxGasPrice() *big.Int`. -/
def BuildTxArgs.GetTxGasPrice (args : Ptr BuildTxArgs) : Outcome (Ptr Int) := do
  let a ← deref args
  -- if args.Extra != nil && args.Extra.EthExtra != nil
  if a.Extra.isSome then
    let x ← deref a.Extra
    if x.EthExtra.isSome then
      let e ← deref x.EthExtra
      return e.GasPrice
  return none

/-- Go `func (args *BuildTxArgs) SetTxGasPrice(gasPrice *big.Int)`. -/
def BuildTxArgs.SetTxGasPrice (args : Ptr BuildTxArgs) (gasPrice : Ptr Int) :
    Outcome (Ptr BuildTxArgs) := do
  -- if args != nil && args.Extra != nil && args.Extra.EthExtra != nil
  if args.isSome then
    let a ← deref args
    if a.Extra.isSome then
      let x ← deref a.Extra
      if x.EthExtra.isSome then
        let e ← deref x.EthExtra
        -- args.Extra.EthExtra.GasPrice = gasPrice
        return some { a with Extra := some { x with EthExtra := some { e with GasPrice := gasPrice } } }
  return args

/-- Go `func (args *BuildTxArgs) GetTxNonce() uint64`; `uint64(seq)` widens a
`uint32` and keeps its value. -/
def BuildTxArgs.GetTxNonce (args : Ptr BuildTxArgs) : Outcome Nat := do
  let a ← deref args
  -- if args.Extra == nil { return 0 }
  if a.Extra.isNone then
    return 0
  let x ← deref a.Extra
  -- if args.Extra.EthExtra != nil && args.Extra.EthExtra.Nonce != nil
  if x.EthExtra.isSome then
    let e ← deref x.EthExtra
    if e.Nonce.isSome then
      let n ← deref e.Nonce
      return n
  -- if args.Extra.RippleExtra != nil && args.Extra.RippleExtra.Sequence != nil
  if x.RippleExtra.isSome then
    let r ← deref x.RippleExtra
    if r.Sequence.isSome then
      let s ← deref r.Sequence
      return s
  -- if args.Extra.TerraExtra != nil && args.Extra.TerraExtra.Sequence != nil
  if x.TerraExtra.isSome then
    let t ← deref x.TerraExtra
    if t.Sequence.isSome then
      let s ← deref t.Sequence
      return s
  return 0

/-- Go `func (args *BuildTxArgs) SetTxNonce(nonce uint64)`; `uint32(nonce)` is
`nonce % 2 ^ 32`. -/
def BuildTxArgs.SetTxNonce (args : Ptr BuildTxArgs) (nonce : Nat) :
    Outcome (Ptr BuildTxArgs) := do
  -- case args == nil || args.Extra == nil: return
  if args.isNone then
    return args
  let a ← deref args
  if a.Extra.isNone then
    return args
  let x ← deref a.Extra
  -- case args.Extra.EthExtra != nil: args.Extra.EthExtra.Nonce = &nonce
  if x.EthExtra.isSome then
    let e ← deref x.EthExtra
    return some { a with Extra := some { x with EthExtra := some { e with Nonce := some nonce } } }
  -- case args.Extra.RippleExtra != nil: seq := uint32(nonce); args.Extra.RippleExtra.Sequence = &seq
  if x.RippleExtra.isSome then
    let seq := nonce % 2 ^ 32
    let r ← deref x.RippleExtra
    return some { a with Extra := some { x with RippleExtra := some { r with Sequence := some seq } } }
  -- case args.Extra.TerraExtra != nil: args.Extra.TerraExtra.Sequence = &nonce
  if x.TerraExtra.isSome then
    let t ← deref x.TerraExtra
    return some { a with Extra := some { x with TerraExtra := some { t with Sequence := some nonce } } }
  return args

/-- Go `func (args *BuildTxArgs) SetReplaceNum(replaceNum uint64)`. -/
def BuildTxArgs.SetReplaceNum (args : Ptr BuildTxArgs) (replaceNum : Nat) :
    Outcome (Ptr BuildTxArgs) := do
  -- if args != nil && args.Extra != nil
  if args.isSome then
    let a ← deref args
    if a.Extra.isSome then
      let x ← deref a.Extra
      -- args.Extra.ReplaceNum = replaceNum
      return some { a with Extra := some { x with ReplaceNum := replaceNum } }
  return args

/-- The call sequence `args.SetTxNonce(nonce); args.GetTxNonce()`. -/
def setThenGetNonce (args : Ptr BuildTxArgs) (nonce : Nat) : Outcome Nat := do
  let args1 ← BuildTxArgs.SetTxNonce args nonce
  BuildTxArgs.GetTxNonce args1

/-- The call sequence `args.SetTxGasPrice(p); args.GetTxGasPrice()`. -/
def setThenGetGasPrice (args : Ptr BuildTxArgs) (gasPrice : Ptr Int) : Outcome (Ptr Int) := do
  let args1 ← BuildTxArgs.SetTxGasPrice args gasPrice
  BuildTxArgs.GetTxGasPrice args1

/-- The call sequence `args.SetReplaceNum(n); args.GetReplaceNum()`. -/
def setThenGetReplaceNum (args : Ptr BuildTxArgs) (replaceNum : Nat) : Outcome Nat := do
  let args1 ← BuildTxArgs.SetReplaceNum args replaceNum
  BuildTxArgs.GetReplaceNum args1

/-! ## Sequences of setter calls and the shape of the tagged union -/

/-- One call of a setter, with its argument. -/
inductive SetterCall : Type where
  | setTxNonce (nonce : Nat) : SetterCall
  | setTxGasPrice (gasPrice : Ptr Int) : SetterCall
  | setReplaceNum (replaceNum : Nat) : SetterCall
deriving DecidableEq, Repr

/-- Perform one setter call on the receiver. -/
def SetterCall.run (c : SetterCall) (args : Ptr BuildTxArgs) : Outcome (Ptr BuildTxArgs) :=
  match c with
  | .setTxNonce nonce => BuildTxArgs.SetTxNonce args nonce
  | .setTxGasPrice gasPrice => BuildTxArgs.SetTxGasPrice args gasPrice
  | .setReplaceNum replaceNum => BuildTxArgs.SetReplaceNum args replaceNum

/-- Perform a sequence of setter calls, first to last, on the same receiver. -/
def runSetters (calls : List SetterCall) (args : Ptr BuildTxArgs) : Outcome (Ptr BuildTxArgs) :=
  match calls with
  | [] => Outcome.ok args
  | c :: rest => c.run args >>= runSetters rest

/-- Which of the four sub-variant pointers of an `AllExtras` are non-nil, in
the order `BtcExtra`, `EthExtra`, `RippleExtra`, `TerraExtra`. -/
def AllExtras.shape (x : AllExtras) : Bool × Bool × Bool × Bool :=
  (x.BtcExtra.isSome, x.EthExtra.isSome, x.RippleExtra.isSome, x.TerraExtra.isSome)

/-- Shape of a receiver: `none` for a nil receiver, `some none` for nil
extras, else the shape of the extras. -/
def BuildTxArgs.shape (args : Ptr BuildTxArgs) : Option (Option (Bool × Bool × Bool × Bool)) :=
  args.map fun a => a.Extra.map AllExtras.shape

/-- Number of non-nil sub-variant pointers. -/
def AllExtras.populated (x : AllExtras) : Nat :=
  x.BtcExtra.isSome.toNat + x.EthExtra.isSome.toNat + x.RippleExtra.isSome.toNat +
    x.TerraExtra.isSome.toNat

/-- A setter call on a receiver in memory: the setter runs on the value the
receiver stands for, and the `AllExtras` cell the receiver points to takes the
extras after the call. (The setters assign through `args.Extra` only, so no
other cell changes.) -/
def Memory.callSetter (m : Memory) (p : Ptr Addr) (call : SetterCall) : Outcome Memory :=
  match m.valueAt p with
  | .nilDeref => .nilDeref
  | .ok v =>
    match call.run v with
    | .nilDeref => .nilDeref
    | .ok v1 =>
      match m.loadArgs p, v1 with
      | .ok c, some a1 =>
        match c.Extra, a1.Extra with
        | some xa, some x1 => .ok { m with extras := m.extras.set xa x1 }
        | _, _ => .ok m
      | _, _ => .ok m

/-- A getter of the nonce on a receiver in memory. -/
def Memory.GetTxNonce (m : Memory) (p : Ptr Addr) : Outcome Nat :=
  m.valueAt p >>= BuildTxArgs.GetTxNonce

/-- A getter of the replace counter on a receiver in memory. -/
def Memory.GetReplaceNum (m : Memory) (p : Ptr Addr) : Outcome Nat :=
  m.valueAt p >>= BuildTxArgs.GetReplaceNum

/-- The call sequence `r := args.GetExtraArgs(); r.SetTxNonce(nonce);
r.SetReplaceNum(n)`, followed by `args.GetTxNonce()` and
`args.GetReplaceNum()` on the receiver. -/
def setThroughCopyThenRead (m : Memory) (args : Ptr Addr) (nonce replaceNum : Nat) :
    Outcome (Nat × Nat) := do
  let (r, m1) ← BuildTxArgs.GetExtraArgs m args
  let m2 ← m1.callSetter r (.setTxNonce nonce)
  let m3 ← m2.callSetter r (.setReplaceNum replaceNum)
  let n ← m3.GetTxNonce args
  let k ← m3.GetReplaceNum args
  return (n, k)

/-! ## Enum names

`fmt.Sprintf` is called with a format that is literal text followed by the one
verb `%d`, on an operand of unsigned integer kind.  For `%d` the `String`
method of the operand is not consulted (that happens for `%v %s %q %x %X`
only), so the result is the text followed by the operand in base 10. -/

/-- Go `fmt.Sprintf(text + "%d", n)` for an unsigned integer `n`. -/
def sprintfUint (text : String) (n : Nat) : String :=
  text ++ Nat.repr n

/-- Go `func (s SwapType) String() string`. -/
def SwapType.String (s : SwapType) : String :=
  if s = NoSwapType then "noswap"
  else if s = SwapinType then "swapin"
  else if s = SwapoutType then "swapout"
  else sprintfUint "unknown swap type " s

/-- Go `func (s SwapTxType) String() string`. -/
def SwapTxType.String (s : SwapTxType) : String :=
  if s = SwapinTx then "swapintx"
  else if s = SwapoutTx then "swapouttx"
  else if s = P2shSwapinTx then "p2shswapintx"
  else sprintfUint "unknown swaptx type " s

/-- Go `func (s *SwapInfo) IsSwapin() bool`. -/
def SwapInfo.IsSwapin (s : Ptr SwapInfo) : Outcome Bool := do
  let v ← deref s
  return decide (v.SwapType = SwapinType)

/-- Reading a list of characters as a base-10 numeral, most significant digit
first. -/
def decimalValue (cs : List Char) : Nat :=
  cs.foldl (fun acc c => 10 * acc + (c.toNat - 48)) 0

/-- A non-empty list of the characters `0` to `9`. -/
def isDecimal (cs : List Char) : Bool :=
  !cs.isEmpty && cs.all Char.isDigit

/-! ## Structured encoding: `encoding/json` on the tagged structs

The structs carry `json:"..."` tags and no marshalling code of their own, so
their encoded form is what `json.Marshal` and `json.Unmarshal` make of the
tags.  The tags are transcribed from the source, one table row per field; the
rules of `encoding/json` that read them are the generic functions below.

* A document is a tree (`Json`); an object keeps its members in order.  A
  `[]byte` travels as a JSON string holding its base64 text, kept here as the
  leaf `Json.base64` of the bytes.
* `omitempty` leaves a field out when its value is empty: false, 0, a nil
  pointer, a nil interface, a slice or string of length 0.  A struct value is
  never empty.
* The tag `json:"-"` leaves the field out of both directions.
* An embedded struct whose tag gives a name is an ordinary field of that name.
* Decoding visits the members of an object in order; a member sets the field
  whose key equals the member's key, or else the first field whose key equals
  it up to letter case; other members are skipped.  `null` sets a pointer,
  slice or interface to nil and leaves any other target as it is.
* A `[]byte` is a `Bytes`, which keeps the nil slice (written `null`) apart
  from a slice of length 0 (written as an empty string).  For
  `PreviousOutPoints` a list stands for the slice, nil or of length 0 alike:
  the field is `omitempty`, which leaves out both.
* Decoding an array into a slice decodes element `i` into the element the
  target already has at `i`; an element beyond the target's length starts
  from the zero value (spare capacity of the target is taken to hold zero
  values).
* A string is Unicode text, so it holds no invalid UTF-8 for `json.Marshal`
  to replace.  Numbers are integers; the structs have no floating-point field.
* The base64 text of a `Json.base64` leaf is not computed: a `[]byte` target
  accepts that leaf, `null` and an array of numbers, and no other target
  accepts the leaf. -/

/-- A JSON document. -/
inductive Json : Type where
  | null : Json
  | bool (b : Bool) : Json
  | num (n : Int) : Json
  | str (s : String) : Json
  | base64 (bytes : List Nat) : Json
  | arr (elems : List Json) : Json
  | obj (members : List (String × Json)) : Json
deriving Repr

/-- Keys of an object, in order; no keys for any other document. -/
def Json.keys (j : Json) : List String :=
  match j with
  | .obj members => members.map Prod.fst
  | _ => []

/-- Parsed struct tag: `json:"name"` is `key name false`,
`json:"name,omitempty"` is `key name true`, `json:"-"` is `dash`. -/
inductive JsonTag : Type where
  | key (name : String) (omitempty : Bool) : JsonTag
  | dash : JsonTag
deriving DecidableEq, Repr

/-- A Go value as the encoder sees it: whether `omitempty` counts it as empty,
and its encoding. -/
structure Encoded where
  isEmpty : Bool
  json : Json

/-- Members of the object that encodes a struct, from its fields in
declaration order. -/
def members (fields : List (JsonTag × Encoded)) : List (String × Json) :=
  match fields with
  | [] => []
  | (.dash, _) :: rest => members rest
  | (.key name omitempty, v) :: rest =>
    if omitempty && v.isEmpty then members rest else (name, v.json) :: members rest

/-- Encoder of a `string`. -/
def encString (s : String) : Encoded := ⟨decide (s = ""), .str s⟩
/-- Encoder of a `bool`. -/
def encBool (b : Bool) : Encoded := ⟨!b, .bool b⟩
/-- Encoder of an unsigned integer. -/
def encUint (n : Nat) : Encoded := ⟨decide (n = 0), .num n⟩
/-- Encoder of a signed integer. -/
def encInt (i : Int) : Encoded := ⟨decide (i = 0), .num i⟩
/-- Encoder of a `big.Int`, a struct with a `MarshalJSON` that writes the
number in decimal. -/
def encBigInt (i : Int) : Encoded := ⟨false, .num i⟩
/-- Encoder of a `[]byte`: `null` for the nil slice, else the base64 string. -/
def encBytes (b : Bytes) : Encoded :=
  ⟨match b with | none => true | some bs => bs.isEmpty,
   match b with | none => .null | some bs => .base64 bs⟩
/-- Encoder of a pointer: `null` for nil, else the encoding of the pointee. -/
def encPtr {α : Type} (enc : α → Encoded) (p : Ptr α) : Encoded :=
  ⟨p.isNone, match p with | none => .null | some v => (enc v).json⟩
/-- Encoder of a slice. -/
def encSlice {α : Type} (enc : α → Encoded) (xs : List α) : Encoded :=
  ⟨xs.isEmpty, .arr (xs.map fun x => (enc x).json)⟩
/-- Encoder of an `interface{}`, whose content is given by its encoding. -/
def encInterface (v : Ptr Json) : Encoded :=
  ⟨v.isNone, match v with | none => .null | some j => j⟩

/-- Decoder of a target of type `α`: from the target's current value and a
document to the new value, or `none` when `json.Unmarshal` reports an error. -/
abbrev Decoder (α : Type) : Type := α → Json → Option α

/-- Decoder of a `string`. -/
def decString : Decoder String := fun cur j =>
  match j with
  | .null => some cur
  | .str s => some s
  | _ => none
/-- Decoder of a `bool`. -/
def decBool : Decoder Bool := fun cur j =>
  match j with
  | .null => some cur
  | .bool b => some b
  | _ => none
/-- Decoder of an unsigned integer of the given width. -/
def decUint (bits : Nat) : Decoder Nat := fun cur j =>
  match j with
  | .null => some cur
  | .num n => if 0 ≤ n ∧ n < 2 ^ bits then some n.toNat else none
  | _ => none
/-- Decoder of a signed integer of the given width. -/
def decInt (bits : Nat) : Decoder Int := fun cur j =>
  match j with
  | .null => some cur
  | .num n => if -(2 ^ (bits - 1)) ≤ n ∧ n < 2 ^ (bits - 1) then some n else none
  | _ => none
/-- Decoder of a `big.Int` (its `UnmarshalJSON`). -/
def decBigInt : Decoder Int := fun cur j =>
  match j with
  | .null => some cur
  | .num n => some n
  | _ => none
/-- Decode the elements of an array, in order, into the elements of the
target; an element the target does not have starts from `zero`. -/
def decElems {α : Type} (zero : α) (dec : Decoder α) (cur : List α) (elems : List Json) :
    Option (List α) :=
  match elems with
  | [] => some []
  | e :: es =>
    (dec (cur.headD zero) e).bind fun v => (decElems zero dec cur.tail es).map fun vs => v :: vs
/-- Decoder of a `[]byte`: `null` gives the nil slice, a base64 string its
bytes, an array of numbers those numbers. -/
def decBytes : Decoder Bytes := fun cur j =>
  match j with
  | .null => some none
  | .base64 bs => some (some bs)
  | .arr elems => (decElems 0 (decUint 8) (cur.getD []) elems).map some
  | _ => none
/-- Decoder of a pointer: `null` gives nil; anything else is decoded into the
pointee, allocated as `zero` when the pointer is nil. -/
def decPtr {α : Type} (zero : α) (dec : Decoder α) : Decoder (Ptr α) := fun cur j =>
  match j with
  | .null => some none
  | _ => (dec (cur.getD zero) j).map some
/-- Decoder of a slice: `null` gives the nil slice, an array its elements. -/
def decSlice {α : Type} (zero : α) (dec : Decoder α) : Decoder (List α) := fun cur j =>
  match j with
  | .null => some []
  | .arr elems => decElems zero dec cur elems
  | _ => none
/-- Decoder of an `interface{}`. -/
def decInterface : Decoder (Ptr Json) := fun _ j =>
  match j with
  | .null => some none
  | _ => some (some j)

/-- One field of a struct `S` as `encoding/json` uses it: its tag, how the
field of a value is encoded, and how a document is decoded into the field of a
target. -/
structure Field (S : Type) where
  tag : JsonTag
  get : S → Encoded
  set : S → Json → Option S

/-- Table row for a field of type `α`, read by `get` and written by `put`,
whose type is encoded by `enc` and decoded by `dec`. -/
def field {S α : Type} (tag : JsonTag) (get : S → α) (put : S → α → S)
    (enc : α → Encoded) (dec : Decoder α) : Field S :=
  { tag := tag
    get := fun s => enc (get s)
    set := fun s j => (dec (get s) j).map (put s) }

/-- Case folding of one character of a key: ASCII letters to upper case, and
the two other characters that fold to an ASCII letter, U+017F to `S` and
U+212A to `K`. -/
def foldChar (c : Char) : Char :=
  if 97 ≤ c.toNat ∧ c.toNat ≤ 122 then Char.ofNat (c.toNat - 32)
  else if c.toNat = 0x17F then 'S'
  else if c.toNat = 0x212A then 'K'
  else c

/-- Case folding of a key. -/
def foldName (k : String) : List Char :=
  k.data.map foldChar

/-- The tag names exactly the key `k`. -/
def JsonTag.isKey (t : JsonTag) (k : String) : Bool :=
  match t with
  | .key name _ => name == k
  | .dash => false

/-- The tag names the key `k` up to letter case. -/
def JsonTag.isFoldedKey (t : JsonTag) (k : String) : Bool :=
  match t with
  | .key name _ => foldName name == foldName k
  | .dash => false

/-- The field a member key selects: the field of that exact key, else the
first field whose key matches up to letter case. -/
def findField {S : Type} (fields : List (Field S)) (k : String) : Option (Field S) :=
  match fields.find? (fun f => f.tag.isKey k) with
  | some f => some f
  | none => fields.find? (fun f => f.tag.isFoldedKey k)

/-- Decode one member of an object into the target. -/
def setField {S : Type} (fields : List (Field S)) (cur : S) (k : String) (v : Json) :
    Option S :=
  match findField fields k with
  | some f => f.set cur v
  | none => some cur

/-- Decode the members of an object, in order, into the target. -/
def decodeMembers {S : Type} (fields : List (Field S)) (cur : S)
    (ms : List (String × Json)) : Option S :=
  match ms with
  | [] => some cur
  | (k, v) :: rest => (setField fields cur k v).bind fun c => decodeMembers fields c rest

/-- Encoder of a struct with the given field table. -/
def encodeStruct {S : Type} (fields : List (Field S)) (s : S) : Encoded :=
  ⟨false, .obj (members (fields.map fun f => (f.tag, f.get s)))⟩

/-- Decoder of a struct with the given field table. -/
def decodeStruct {S : Type} (fields : List (Field S)) : Decoder S := fun cur j =>
  match j with
  | .null => some cur
  | .obj ms => decodeMembers fields cur ms
  | _ => none

/-- Go `struct SwapInfo`, its tags. -/
def SwapInfo.fields : List (Field SwapInfo) :=
  [ field (.key "pairid" true) (·.PairID) (fun s v => { s with PairID := v }) encString decString,
    field (.key "swapid" true) (·.SwapID) (fun s v => { s with SwapID := v }) encString decString,
    field (.key "swaptype" true) (·.SwapType) (fun s v => { s with SwapType := v })
      encUint (decUint 32),
    field (.key "txtype" true) (·.TxType) (fun s v => { s with TxType := v })
      encUint (decUint 32),
    field (.key "bind" true) (·.Bind) (fun s v => { s with Bind := v }) encString decString,
    field (.key "identifier" true) (·.Identifier) (fun s v => { s with Identifier := v })
      encString decString,
    field (.key "reswapping" true) (·.Reswapping) (fun s v => { s with Reswapping := v })
      encBool decBool ]

/-- Go `struct EthExtraArgs`, its tags. -/
def EthExtraArgs.fields : List (Field EthExtraArgs) :=
  [ field (.key "gas" true) (·.Gas) (fun s v => { s with Gas := v })
      (encPtr encUint) (decPtr 0 (decUint 64)),
    field (.key "gasPrice" true) (·.GasPrice) (fun s v => { s with GasPrice := v })
      (encPtr encBigInt) (decPtr 0 decBigInt),
    field (.key "gasTipCap" true) (·.GasTipCap) (fun s v => { s with GasTipCap := v })
      (encPtr encBigInt) (decPtr 0 decBigInt),
    field (.key "gasFeeCap" true) (·.GasFeeCap) (fun s v => { s with GasFeeCap := v })
      (encPtr encBigInt) (decPtr 0 decBigInt),
    field (.key "nonce" true) (·.Nonce) (fun s v => { s with Nonce := v })
      (encPtr encUint) (decPtr 0 (decUint 64)) ]

/-- Go `struct RippleExtra`, its tags. -/
def RippleExtra.fields : List (Field RippleExtra) :=
  [ field (.key "sequence" true) (·.Sequence) (fun s v => { s with Sequence := v })
      (encPtr encUint) (decPtr 0 (decUint 32)),
    field (.key "fee" true) (·.Fee) (fun s v => { s with Fee := v })
      (encPtr encInt) (decPtr 0 (decInt 64)) ]

/-- Go `struct TerraExtra`, its tags. -/
def TerraExtra.fields : List (Field TerraExtra) :=
  [ field (.key "sequence" true) (·.Sequence) (fun s v => { s with Sequence := v })
      (encPtr encUint) (decPtr 0 (decUint 64)),
    field (.key "fees" true) (·.Fees) (fun s v => { s with Fees := v })
      (encPtr encString) (decPtr "" decString),
    field (.key "gas" true) (·.Gas) (fun s v => { s with Gas := v })
      (encPtr encUint) (decPtr 0 (decUint 64)) ]

/-- Go `struct BtcOutPoint`, its tags. -/
def BtcOutPoint.fields : List (Field BtcOutPoint) :=
  [ field (.key "hash" false) (·.Hash) (fun s v => { s with Hash := v }) encString decString,
    field (.key "index" false) (·.Index) (fun s v => { s with Index := v })
      encUint (decUint 32) ]

/-- Go `struct BtcExtraArgs`, its tags; `ChangeAddress` is tagged `json:"-"`. -/
def BtcExtraArgs.fields : List (Field BtcExtraArgs) :=
  [ field (.key "relayFeePerKb" true) (·.RelayFeePerKb)
      (fun s v => { s with RelayFeePerKb := v }) (encPtr encInt) (decPtr 0 (decInt 64)),
    field .dash (·.ChangeAddress) (fun s v => { s with ChangeAddress := v })
      (encPtr encString) (decPtr "" decString),
    field (.key "previousOutPoints" true) (·.PreviousOutPoints)
      (fun s v => { s with PreviousOutPoints := v })
      (encSlice (encPtr (encodeStruct BtcOutPoint.fields)))
      (decSlice none (decPtr {} (decodeStruct BtcOutPoint.fields))) ]

/-- Go `struct AllExtras`, its tags. -/
def AllExtras.fields : List (Field AllExtras) :=
  [ field (.key "replaceNum" true) (·.ReplaceNum) (fun s v => { s with ReplaceNum := v })
      encUint (decUint 64),
    field (.key "btcExtra" true) (·.BtcExtra) (fun s v => { s with BtcExtra := v })
      (encPtr (encodeStruct BtcExtraArgs.fields)) (decPtr {} (decodeStruct BtcExtraArgs.fields)),
    field (.key "ethExtra" true) (·.EthExtra) (fun s v => { s with EthExtra := v })
      (encPtr (encodeStruct EthExtraArgs.fields)) (decPtr {} (decodeStruct EthExtraArgs.fields)),
    field (.key "rippleExtra" true) (·.RippleExtra) (fun s v => { s with RippleExtra := v })
      (encPtr (encodeStruct RippleExtra.fields)) (decPtr {} (decodeStruct RippleExtra.fields)),
    field (.key "terraExtra" true) (·.TerraExtra) (fun s v => { s with TerraExtra := v })
      (encPtr (encodeStruct TerraExtra.fields)) (decPtr {} (decodeStruct TerraExtra.fields)) ]

/-- Go `struct BuildTxArgs`, its tags; the embedded `SwapInfo` carries the
tag `json:"swapInfo,omitempty"` and is a field of struct type. -/
def BuildTxArgs.fields : List (Field BuildTxArgs) :=
  [ field (.key "swapInfo" true) (·.SwapInfo) (fun s v => { s with SwapInfo := v })
      (encodeStruct SwapInfo.fields) (decodeStruct SwapInfo.fields),
    field (.key "from" true) (·.From) (fun s v => { s with From := v }) encString decString,
    field (.key "to" true) (·.To) (fun s v => { s with To := v }) encString decString,
    field (.key "originFrom" true) (·.OriginFrom) (fun s v => { s with OriginFrom := v })
      encString decString,
    field (.key "originTxTo" true) (·.OriginTxTo) (fun s v => { s with OriginTxTo := v })
      encString decString,
    field (.key "value" true) (·.Value) (fun s v => { s with Value := v })
      (encPtr encBigInt) (decPtr 0 decBigInt),
    field (.key "originValue" true) (·.OriginValue) (fun s v => { s with OriginValue := v })
      (encPtr encBigInt) (decPtr 0 decBigInt),
    field (.key "swapvalue" true) (·.SwapValue) (fun s v => { s with SwapValue := v })
      (encPtr encBigInt) (decPtr 0 decBigInt),
    field (.key "memo" true) (·.Memo) (fun s v => { s with Memo := v }) encString decString,
    field (.key "input" true) (·.Input) (fun s v => { s with Input := v })
      (encPtr encBytes) (decPtr none decBytes),
    field (.key "extra" true) (·.Extra) (fun s v => { s with Extra := v })
      (encPtr (encodeStruct AllExtras.fields)) (decPtr {} (decodeStruct AllExtras.fields)) ]

/-- Go `struct TxStatus`; the `interface{}` field `Receipt` is nil or holds a
value, given by its encoding. -/
structure TxStatus where
  Receipt : Ptr Json := none
  Confirmations : Nat := 0
  BlockHeight : Nat := 0
  BlockHash : String := ""
  BlockTime : Nat := 0

/-- Go `struct TxStatus`, its tags. -/
def TxStatus.fields : List (Field TxStatus) :=
  [ field (.key "receipt" true) (·.Receipt) (fun s v => { s with Receipt := v })
      encInterface decInterface,
    field (.key "confirmations" false) (·.Confirmations)
      (fun s v => { s with Confirmations := v }) encUint (decUint 64),
    field (.key "block_height" false) (·.BlockHeight)
      (fun s v => { s with BlockHeight := v }) encUint (decUint 64),
    field (.key "block_hash" false) (·.BlockHash) (fun s v => { s with BlockHash := v })
      encString decString,
    field (.key "block_time" false) (·.BlockTime) (fun s v => { s with BlockTime := v })
      encUint (decUint 64) ]

/-- Go `json.Marshal` of a `BuildTxArgs`. -/
def BuildTxArgs.marshal (a : BuildTxArgs) : Json :=
  (encodeStruct BuildTxArgs.fields a).json

/-- Go `json.Unmarshal` of a document into a fresh `BuildTxArgs`. -/
def BuildTxArgs.unmarshal (j : Json) : Option BuildTxArgs :=
  decodeStruct BuildTxArgs.fields {} j

/-- Go `json.Marshal` of a `BtcExtraArgs`. -/
def BtcExtraArgs.marshal (b : BtcExtraArgs) : Json :=
  (encodeStruct BtcExtraArgs.fields b).json

/-! ### Values that fit their Go types -/

/-- The natural `n` fits an unsigned integer of the given width. -/
def isUint (bits n : Nat) : Bool := decide (n < 2 ^ bits)

/-- The integer `i` fits a signed integer of the given width. -/
def isInt (bits : Nat) (i : Int) : Bool :=
  decide (-(2 ^ (bits - 1)) ≤ i ∧ i < 2 ^ (bits - 1))

/-- The `uint32` fields of a `SwapInfo` are in range. -/
def SwapInfo.wellTyped (s : SwapInfo) : Bool :=
  isUint 32 s.SwapType && isUint 32 s.TxType

/-- The `*uint64` fields of an `EthExtraArgs` are in range. -/
def EthExtraArgs.wellTyped (e : EthExtraArgs) : Bool :=
  e.Gas.all (isUint 64) && e.Nonce.all (isUint 64)

/-- The `*uint32` and `*int64` fields of a `RippleExtra` are in range. -/
def RippleExtra.wellTyped (r : RippleExtra) : Bool :=
  r.Sequence.all (isUint 32) && r.Fee.all (isInt 64)

/-- The `*uint64` fields of a `TerraExtra` are in range. -/
def TerraExtra.wellTyped (t : TerraExtra) : Bool :=
  t.Sequence.all (isUint 64) && t.Gas.all (isUint 64)

/-- The `uint32` field of a `BtcOutPoint` is in range. -/
def BtcOutPoint.wellTyped (o : BtcOutPoint) : Bool :=
  isUint 32 o.Index

/-- The integer fields of a `BtcExtraArgs` and of its out points are in range. -/
def BtcExtraArgs.wellTyped (b : BtcExtraArgs) : Bool :=
  b.RelayFeePerKb.all (isInt 64) && b.PreviousOutPoints.all (fun o => o.all BtcOutPoint.wellTyped)

/-- The integer fields of an `AllExtras` and of its sub-variants are in range. -/
def AllExtras.wellTyped (x : AllExtras) : Bool :=
  isUint 64 x.ReplaceNum && x.BtcExtra.all BtcExtraArgs.wellTyped &&
    x.EthExtra.all EthExtraArgs.wellTyped && x.RippleExtra.all RippleExtra.wellTyped &&
    x.TerraExtra.all TerraExtra.wellTyped

/-- Every integer field reachable from a `BuildTxArgs` is in the range of its
Go type, and `Input` holds bytes. -/
def BuildTxArgs.wellTyped (a : BuildTxArgs) : Bool :=
  a.SwapInfo.wellTyped && a.Input.all (fun b => b.all fun bs => bs.all (isUint 8)) &&
    a.Extra.all AllExtras.wellTyped

/-! ## Concrete states used as test inputs -/

/-- Args whose extras hold only an (empty) `RippleExtra`. -/
def rippleOnlyArgs : BuildTxArgs :=
  { From := "rFrom", To := "rTo", Extra := some { RippleExtra := some {} } }

/-- Args whose extras hold only an `EthExtraArgs` with a previous nonce. -/
def ethOnlyArgs : BuildTxArgs :=
  { From := "0xa", To := "0xb", Value := some 5,
    Extra := some { ReplaceNum := 1, EthExtra := some { GasPrice := some 7, Nonce := some 9 } } }

/-- The args `ethOnlyArgs` with `Input` pointing at the nil slice. -/
def ethNilInputArgs : BuildTxArgs :=
  { ethOnlyArgs with Input := some none }

/-- Args whose extras hold only a `TerraExtra`. -/
def terraOnlyArgs : BuildTxArgs :=
  { Memo := "m", Extra := some { TerraExtra := some { Fees := some "1uluna" } } }

/-- Args in the invalid state where all four sub-variants are populated:
`EthExtra` without a nonce, `RippleExtra` with sequence 4, `TerraExtra` with
sequence 8. -/
def mixedArgs : BuildTxArgs :=
  { From := "f", To := "t",
    Extra := some
      { ReplaceNum := 2,
        BtcExtra := some { RelayFeePerKb := some 2000, PreviousOutPoints := [some { Hash := "h", Index := 1 }] },
        EthExtra := some { Gas := some 21000, GasPrice := some 7 },
        RippleExtra := some { Sequence := some 4, Fee := some 10 },
        TerraExtra := some { Sequence := some 8, Gas := some 3 } } }

/-- Args whose extras hold only a `BtcExtraArgs`. -/
def btcOnlyArgs : BuildTxArgs :=
  { From := "b", Extra := some { ReplaceNum := 4, BtcExtra := some { ChangeAddress := some "c" } } }

/-- Args without extras. -/
def noExtraArgs : BuildTxArgs :=
  { From := "f", To := "t", Value := some 1 }

/-- Args with every field populated. -/
def fullArgs : BuildTxArgs :=
  { SwapInfo := { PairID := "p", SwapID := "s", SwapType := SwapinType, TxType := SwapoutTx,
                  Bind := "b", Identifier := "i", Reswapping := true },
    From := "f", To := "t", OriginFrom := "of", OriginTxTo := "ot",
    Value := some 10, OriginValue := some 11, SwapValue := some 9,
    Memo := "m", Input := some (some [1, 2]),
    Extra := some { ReplaceNum := 3, EthExtra := some { Gas := some 1, Nonce := some 5 } } }

/-- A sequence of six setter calls. -/
def sampleCalls : List SetterCall :=
  [.setTxNonce 5, .setTxGasPrice (some 3), .setReplaceNum 9, .setTxGasPrice none,
   .setTxNonce (2 ^ 40), .setReplaceNum 0]

/-- A `BtcExtraArgs` with every field set. -/
def btcExtraSample : BtcExtraArgs :=
  { RelayFeePerKb := some 2000, ChangeAddress := some "bc1-change",
    PreviousOutPoints := [some { Hash := "h", Index := 1 }, none] }

/-- The cell of `ethOnlyArgs`, pointing to the `AllExtras` cell at address 0. -/
def sampleCell : ArgsCell :=
  { From := "0xa", To := "0xb", Value := some 5, Extra := some 0 }

/-- A memory holding `ethOnlyArgs`: `sampleCell` at address 0 and its
`AllExtras` cell at address 0. -/
def sampleMemory : Memory :=
  { extras := [{ ReplaceNum := 1, EthExtra := some { GasPrice := some 7, Nonce := some 9 } }],
    args := [sampleCell] }

/-! ## Evaluation lemmas -/

@[simp] theorem Outcome.pure_eq {α : Type} (v : α) : (pure v : Outcome α) = Outcome.ok v := rfl

@[simp] theorem Outcome.ok_bind {α β : Type} (v : α) (f : α → Outcome β) :
    (Outcome.ok v >>= f) = f v := rfl

@[simp] theorem Outcome.nilDeref_bind {α β : Type} (f : α → Outcome β) :
    ((Outcome.nilDeref : Outcome α) >>= f) = Outcome.nilDeref := rfl

@[simp] theorem deref_some {α : Type} (v : α) : deref (some v) = Outcome.ok v := rfl

@[simp] theorem deref_none {α : Type} : deref (none : Ptr α) = Outcome.nilDeref := rfl

/-- On a receiver with extras, `GetTxNonce` returns the first sequencing value
that is set, in the order Eth nonce, Ripple sequence, Terra sequence, else 0. -/
theorem GetTxNonce_of_extra (a : BuildTxArgs) (x : AllExtras) (hx : a.Extra = some x) :
    BuildTxArgs.GetTxNonce (some a) = Outcome.ok
      (match x.EthExtra.bind EthExtraArgs.Nonce, x.RippleExtra.bind RippleExtra.Sequence,
          x.TerraExtra.bind TerraExtra.Sequence with
        | some n, _, _ => n
        | none, some s, _ => s
        | none, none, some s => s
        | none, none, none => 0) := by
  simp only [BuildTxArgs.GetTxNonce, hx, deref_some, Outcome.ok_bind, Option.isNone_some,
    Bool.false_eq_true, if_false]
  cases he : x.EthExtra with
  | none =>
    cases hr : x.RippleExtra with
    | none =>
      cases ht : x.TerraExtra with
      | none => simp
      | some t => cases hts : t.Sequence <;> simp [hts]
    | some r =>
      cases hrs : r.Sequence with
      | some s => simp [hrs]
      | none =>
        cases ht : x.TerraExtra with
        | none => simp [hrs]
        | some t => cases hts : t.Sequence <;> simp [hrs, hts]
  | some e =>
    cases hen : e.Nonce with
    | some n => simp [hen]
    | none =>
      cases hr : x.RippleExtra with
      | none =>
        cases ht : x.TerraExtra with
        | none => simp [hen]
        | some t => cases hts : t.Sequence <;> simp [hen, hts]
      | some r =>
        cases hrs : r.Sequence with
        | some s => simp [hen, hrs]
        | none =>
          cases ht : x.TerraExtra with
          | none => simp [hen, hrs]
          | some t => cases hts : t.Sequence <;> simp [hen, hrs, hts]

/-- On a receiver without extras, `GetTxNonce` returns 0. -/
theorem GetTxNonce_of_no_extra (a : BuildTxArgs) (hx : a.Extra = none) :
    BuildTxArgs.GetTxNonce (some a) = Outcome.ok 0 := by
  simp [BuildTxArgs.GetTxNonce, hx]

/-- `SetTxNonce` returns normally and keeps the shape of its receiver. -/
theorem SetTxNonce_shape (args : Ptr BuildTxArgs) (nonce : Nat) :
    ∃ args1, BuildTxArgs.SetTxNonce args nonce = Outcome.ok args1 ∧
      BuildTxArgs.shape args1 = BuildTxArgs.shape args := by
  cases args with
  | none => exact ⟨none, rfl, rfl⟩
  | some a =>
    cases hx : a.Extra with
    | none => exact ⟨some a, by simp [BuildTxArgs.SetTxNonce, hx], rfl⟩
    | some x =>
      cases he : x.EthExtra <;> cases hr : x.RippleExtra <;> cases ht : x.TerraExtra <;>
        simp [BuildTxArgs.SetTxNonce, BuildTxArgs.shape, AllExtras.shape, hx, he, hr, ht]

/-- `SetTxGasPrice` returns normally and keeps the shape of its receiver. -/
theorem SetTxGasPrice_shape (args : Ptr BuildTxArgs) (gasPrice : Ptr Int) :
    ∃ args1, BuildTxArgs.SetTxGasPrice args gasPrice = Outcome.ok args1 ∧
      BuildTxArgs.shape args1 = BuildTxArgs.shape args := by
  cases args with
  | none => exact ⟨none, rfl, rfl⟩
  | some a =>
    cases hx : a.Extra with
    | none => exact ⟨some a, by simp [BuildTxArgs.SetTxGasPrice, hx], rfl⟩
    | some x =>
      cases he : x.EthExtra <;>
        simp [BuildTxArgs.SetTxGasPrice, BuildTxArgs.shape, AllExtras.shape, hx, he]

/-- `SetReplaceNum` returns normally and keeps the shape of its receiver. -/
theorem SetReplaceNum_shape (args : Ptr BuildTxArgs) (replaceNum : Nat) :
    ∃ args1, BuildTxArgs.SetReplaceNum args replaceNum = Outcome.ok args1 ∧
      BuildTxArgs.shape args1 = BuildTxArgs.shape args := by
  cases args with
  | none => exact ⟨none, rfl, rfl⟩
  | some a =>
    cases hx : a.Extra with
    | none => exact ⟨some a, by simp [BuildTxArgs.SetReplaceNum, hx], rfl⟩
    | some x => simp [BuildTxArgs.SetReplaceNum, BuildTxArgs.shape, AllExtras.shape, hx]

/-- Any sequence of setter calls returns normally and keeps the shape. -/
theorem runSetters_shape (calls : List SetterCall) (args : Ptr BuildTxArgs) :
    ∃ args1, runSetters calls args = Outcome.ok args1 ∧
      BuildTxArgs.shape args1 = BuildTxArgs.shape args := by
  induction calls generalizing args with
  | nil => exact ⟨args, rfl, rfl⟩
  | cons c rest ih =>
    have hc : ∃ args1, c.run args = Outcome.ok args1 ∧
        BuildTxArgs.shape args1 = BuildTxArgs.shape args := by
      cases c with
      | setTxNonce n => exact SetTxNonce_shape args n
      | setTxGasPrice p => exact SetTxGasPrice_shape args p
      | setReplaceNum n => exact SetReplaceNum_shape args n
    obtain ⟨mid, hmid, hshape⟩ := hc
    obtain ⟨fin, hfin, hshape2⟩ := ih mid
    refine ⟨fin, ?_, hshape2.trans hshape⟩
    simp [runSetters, hmid, hfin]

/-! ### Independence of the setters -/

theorem SetTxNonce_comm_SetTxGasPrice (args : Ptr BuildTxArgs) (N : Nat) (p : Ptr Int) :
    (BuildTxArgs.SetTxNonce args N >>= fun r => BuildTxArgs.SetTxGasPrice r p) =
      (BuildTxArgs.SetTxGasPrice args p >>= fun r => BuildTxArgs.SetTxNonce r N) := by
  cases args with
  | none => rfl
  | some a =>
    cases hx : a.Extra with
    | none => simp [BuildTxArgs.SetTxNonce, BuildTxArgs.SetTxGasPrice, hx]
    | some x =>
      cases he : x.EthExtra <;> cases hr : x.RippleExtra <;> cases ht : x.TerraExtra <;>
        simp [BuildTxArgs.SetTxNonce, BuildTxArgs.SetTxGasPrice, hx, he, hr, ht]

theorem SetTxNonce_comm_SetReplaceNum (args : Ptr BuildTxArgs) (N n : Nat) :
    (BuildTxArgs.SetTxNonce args N >>= fun r => BuildTxArgs.SetReplaceNum r n) =
      (BuildTxArgs.SetReplaceNum args n >>= fun r => BuildTxArgs.SetTxNonce r N) := by
  cases args with
  | none => rfl
  | some a =>
    cases hx : a.Extra with
    | none => simp [BuildTxArgs.SetTxNonce, BuildTxArgs.SetReplaceNum, hx]
    | some x =>
      cases he : x.EthExtra <;> cases hr : x.RippleExtra <;> cases ht : x.TerraExtra <;>
        simp [BuildTxArgs.SetTxNonce, BuildTxArgs.SetReplaceNum, hx, he, hr, ht]

theorem SetTxGasPrice_comm_SetReplaceNum (args : Ptr BuildTxArgs) (p : Ptr Int) (n : Nat) :
    (BuildTxArgs.SetTxGasPrice args p >>= fun r => BuildTxArgs.SetReplaceNum r n) =
      (BuildTxArgs.SetReplaceNum args n >>= fun r => BuildTxArgs.SetTxGasPrice r p) := by
  cases args with
  | none => rfl
  | some a =>
    cases hx : a.Extra with
    | none => simp [BuildTxArgs.SetTxGasPrice, BuildTxArgs.SetReplaceNum, hx]
    | some x =>
      cases he : x.EthExtra <;>
        simp [BuildTxArgs.SetTxGasPrice, BuildTxArgs.SetReplaceNum, hx, he]

/-- `GetTxNonce` depends on the extras only through the three sequencing fields. -/
theorem GetTxNonce_congr (a a1 : BuildTxArgs) (x x1 : AllExtras)
    (hx : a.Extra = some x) (h1 : a1.Extra = some x1)
    (he : x1.EthExtra.bind EthExtraArgs.Nonce = x.EthExtra.bind EthExtraArgs.Nonce)
    (hr : x1.RippleExtra = x.RippleExtra) (ht : x1.TerraExtra = x.TerraExtra) :
    BuildTxArgs.GetTxNonce (some a1) = BuildTxArgs.GetTxNonce (some a) := by
  rw [GetTxNonce_of_extra a1 x1 h1, GetTxNonce_of_extra a x hx, he, hr, ht]

theorem GetTxNonce_after_SetTxGasPrice (args : Ptr BuildTxArgs) (p : Ptr Int) :
    (BuildTxArgs.SetTxGasPrice args p >>= BuildTxArgs.GetTxNonce) =
      BuildTxArgs.GetTxNonce args := by
  cases args with
  | none => rfl
  | some a =>
    cases hx : a.Extra with
    | none => simp [BuildTxArgs.SetTxGasPrice, hx]
    | some x =>
      cases he : x.EthExtra with
      | none => simp [BuildTxArgs.SetTxGasPrice, hx, he]
      | some e =>
        simp only [BuildTxArgs.SetTxGasPrice, hx, he, Option.isSome_some, if_true,
          deref_some, Outcome.ok_bind, Outcome.pure_eq]
        exact GetTxNonce_congr a _ x _ hx rfl (by simp [he]) rfl rfl

theorem GetTxNonce_after_SetReplaceNum (args : Ptr BuildTxArgs) (n : Nat) :
    (BuildTxArgs.SetReplaceNum args n >>= BuildTxArgs.GetTxNonce) =
      BuildTxArgs.GetTxNonce args := by
  cases args with
  | none => rfl
  | some a =>
    cases hx : a.Extra with
    | none => simp [BuildTxArgs.SetReplaceNum, hx]
    | some x =>
      simp only [BuildTxArgs.SetReplaceNum, hx, Option.isSome_some, if_true,
        deref_some, Outcome.ok_bind, Outcome.pure_eq]
      exact GetTxNonce_congr a _ x _ hx rfl rfl rfl rfl

theorem GetTxGasPrice_after_SetTxNonce (args : Ptr BuildTxArgs) (N : Nat) :
    (BuildTxArgs.SetTxNonce args N >>= BuildTxArgs.GetTxGasPrice) =
      BuildTxArgs.GetTxGasPrice args := by
  cases args with
  | none => rfl
  | some a =>
    cases hx : a.Extra with
    | none => simp [BuildTxArgs.SetTxNonce, hx]
    | some x =>
      cases he : x.EthExtra <;> cases hr : x.RippleExtra <;> cases ht : x.TerraExtra <;>
        simp [BuildTxArgs.SetTxNonce, hx, he, hr, ht] <;>
        simp [BuildTxArgs.GetTxGasPrice, hx, he]

theorem GetTxGasPrice_after_SetReplaceNum (args : Ptr BuildTxArgs) (n : Nat) :
    (BuildTxArgs.SetReplaceNum args n >>= BuildTxArgs.GetTxGasPrice) =
      BuildTxArgs.GetTxGasPrice args := by
  cases args with
  | none => rfl
  | some a =>
    cases hx : a.Extra with
    | none => simp [BuildTxArgs.SetReplaceNum, hx]
    | some x => simp [BuildTxArgs.SetReplaceNum, BuildTxArgs.GetTxGasPrice, hx]

theorem GetReplaceNum_after_SetTxNonce (args : Ptr BuildTxArgs) (N : Nat) :
    (BuildTxArgs.SetTxNonce args N >>= BuildTxArgs.GetReplaceNum) =
      BuildTxArgs.GetReplaceNum args := by
  cases args with
  | none => rfl
  | some a =>
    cases hx : a.Extra with
    | none => simp [BuildTxArgs.SetTxNonce, hx]
    | some x =>
      cases he : x.EthExtra <;> cases hr : x.RippleExtra <;> cases ht : x.TerraExtra <;>
        simp [BuildTxArgs.SetTxNonce, hx, he, hr, ht] <;>
        simp [BuildTxArgs.GetReplaceNum, hx]

theorem GetReplaceNum_after_SetTxGasPrice (args : Ptr BuildTxArgs) (p : Ptr Int) :
    (BuildTxArgs.SetTxGasPrice args p >>= BuildTxArgs.GetReplaceNum) =
      BuildTxArgs.GetReplaceNum args := by
  cases args with
  | none => rfl
  | some a =>
    cases hx : a.Extra with
    | none => simp [BuildTxArgs.SetTxGasPrice, hx]
    | some x =>
      cases he : x.EthExtra <;>
        simp [BuildTxArgs.SetTxGasPrice, BuildTxArgs.GetReplaceNum, hx, he]

/-! ### Decimal rendering -/

theorem digitChar_value (k : Nat) (hk : k < 10) : (Nat.digitChar k).toNat - 48 = k := by
  interval_cases k <;> rfl

theorem digitChar_isDigit (k : Nat) (hk : k < 10) : (Nat.digitChar k).isDigit = true := by
  interval_cases k <;> rfl

theorem toDigitsCore_value (fuel : Nat) : ∀ (n : Nat) (ds : List Char), n < fuel →
    decimalValue (Nat.toDigitsCore 10 fuel n ds) =
      ds.foldl (fun acc c => 10 * acc + (c.toNat - 48)) n := by
  induction fuel with
  | zero => intro n ds h; omega
  | succ fuel ih =>
    intro n ds h
    simp only [Nat.toDigitsCore]
    split
    · have hlt : n < 10 := by
        by_contra hge
        have : 1 ≤ n / 10 := Nat.div_pos (by omega) (by decide)
        omega
      simp [decimalValue, Nat.mod_eq_of_lt hlt, digitChar_value n hlt]
    · rename_i h0
      have hlt : n / 10 < fuel := by
        have : n / 10 < n := Nat.div_lt_self (by
          by_contra h1
          have : n = 0 := by omega
          simp [this] at h0) (by decide)
        omega
      rw [ih (n / 10) _ hlt]
      simp only [List.foldl_cons, digitChar_value (n % 10) (Nat.mod_lt _ (by decide))]
      congr 1
      omega

theorem toDigitsCore_isDigit (fuel : Nat) : ∀ (n : Nat) (ds : List Char),
    (∀ c ∈ ds, c.isDigit = true) → 0 < fuel →
    isDecimal (Nat.toDigitsCore 10 fuel n ds) = true := by
  induction fuel with
  | zero => intro n ds _ h; omega
  | succ fuel ih =>
    intro n ds hds _
    have hd : (Nat.digitChar (n % 10)).isDigit = true :=
      digitChar_isDigit (n % 10) (Nat.mod_lt _ (by decide))
    have hcons : ∀ c ∈ Nat.digitChar (n % 10) :: ds, c.isDigit = true := by
      intro c hc
      rcases List.mem_cons.mp hc with rfl | hc
      · exact hd
      · exact hds c hc
    simp only [Nat.toDigitsCore]
    split
    · simpa [isDecimal] using hcons
    · cases fuel with
      | zero => simpa [Nat.toDigitsCore, isDecimal] using hcons
      | succ fuel => exact ih (n / 10) _ hcons (by omega)

/-- The text `Nat.repr n` reads back as `n`. -/
theorem decimalValue_repr (n : Nat) : decimalValue (Nat.repr n).data = n := by
  simp only [Nat.repr, Nat.toDigits, List.asString]
  rw [toDigitsCore_value (n + 1) n [] (by omega)]
  rfl

/-- The text `Nat.repr n` is a non-empty string of decimal digits. -/
theorem isDecimal_repr (n : Nat) : isDecimal (Nat.repr n).data = true := by
  simp only [Nat.repr, Nat.toDigits, List.asString]
  exact toDigitsCore_isDigit (n + 1) n [] (by simp) (by omega)

theorem repr_injective (m n : Nat) (h : Nat.repr m = Nat.repr n) : m = n := by
  rw [← decimalValue_repr m, ← decimalValue_repr n, h]

theorem append_left_cancel (t a b : String) (h : t ++ a = t ++ b) : a = b := by
  have hd := congrArg String.data h
  simp only [String.data_append, List.append_cancel_left_eq] at hd
  exact String.ext hd

theorem SwapType_String_injective (s t : SwapType)
    (h : SwapType.String s = SwapType.String t) : s = t := by
  unfold SwapType.String at h
  simp only [NoSwapType, SwapinType, SwapoutType] at h
  split_ifs at h <;> first
    | (subst_vars; rfl)
    | (exfalso; have hd := congrArg String.data h; simp [sprintfUint] at hd; done)
    | (exact repr_injective _ _ (append_left_cancel _ _ _ h))

theorem SwapTxType_String_injective (s t : SwapTxType)
    (h : SwapTxType.String s = SwapTxType.String t) : s = t := by
  unfold SwapTxType.String at h
  simp only [SwapinTx, SwapoutTx, P2shSwapinTx] at h
  split_ifs at h <;> first
    | (subst_vars; rfl)
    | (exfalso; have hd := congrArg String.data h; simp [sprintfUint] at hd; done)
    | (exact repr_injective _ _ (append_left_cancel _ _ _ h))

/-! ### Keys of an encoded struct -/

theorem mem_keys_members (k : String) (l : List (JsonTag × Encoded)) :
    k ∈ (members l).map Prod.fst ↔
      ∃ oe v, (JsonTag.key k oe, v) ∈ l ∧ (oe && v.isEmpty) = false := by
  induction l with
  | nil => simp [members]
  | cons hd tl ih =>
    obtain ⟨t, v⟩ := hd
    cases t with
    | dash => simp [members, ih]
    | key name oe =>
      by_cases hc : (oe && v.isEmpty) = true
      · simp only [members, hc, if_true, ih, List.mem_cons, Prod.mk.injEq, JsonTag.key.injEq]
        constructor
        · rintro ⟨oe1, v1, h1, h2⟩
          exact ⟨oe1, v1, Or.inr h1, h2⟩
        · rintro ⟨oe1, v1, h1 | h1, h2⟩
          · obtain ⟨⟨-, rfl⟩, rfl⟩ := h1
            rw [hc] at h2
            exact absurd h2 (by decide)
          · exact ⟨oe1, v1, h1, h2⟩
      · simp only [members, hc, if_false, List.map_cons, List.mem_cons, ih, Prod.mk.injEq,
          JsonTag.key.injEq, Bool.false_eq_true]
        constructor
        · rintro (h | ⟨oe1, v1, h1, h2⟩)
          · exact ⟨oe, v, Or.inl ⟨⟨h, rfl⟩, rfl⟩, by simpa using hc⟩
          · exact ⟨oe1, v1, Or.inr h1, h2⟩
        · rintro ⟨oe1, v1, h1 | h1, h2⟩
          · exact Or.inl h1.1.1
          · exact Or.inr ⟨oe1, v1, h1, h2⟩

theorem mem_keys_encodeStruct {S : Type} (fields : List (Field S)) (s : S) (k : String) :
    k ∈ (encodeStruct fields s).json.keys ↔
      ∃ f ∈ fields, ∃ oe, f.tag = JsonTag.key k oe ∧ (oe && (f.get s).isEmpty) = false := by
  show k ∈ (members (fields.map fun f => (f.tag, f.get s))).map Prod.fst ↔ _
  rw [mem_keys_members]
  constructor
  · rintro ⟨oe, v, hmem, h3⟩
    obtain ⟨f, hf, heq⟩ := List.mem_map.mp hmem
    obtain ⟨h1, h2⟩ := Prod.mk.inj heq
    exact ⟨f, hf, oe, h1, by rw [h2]; exact h3⟩
  · rintro ⟨f, hf, oe, h1, h2⟩
    exact ⟨oe, f.get s, List.mem_map.mpr ⟨f, hf, by rw [h1]⟩, h2⟩

theorem SwapInfo_omitempty (s : SwapInfo) :
    (s.PairID = "" → "pairid" ∉ (encodeStruct SwapInfo.fields s).json.keys) ∧
    (s.SwapID = "" → "swapid" ∉ (encodeStruct SwapInfo.fields s).json.keys) ∧
    (s.SwapType = 0 → "swaptype" ∉ (encodeStruct SwapInfo.fields s).json.keys) ∧
    (s.TxType = 0 → "txtype" ∉ (encodeStruct SwapInfo.fields s).json.keys) ∧
    (s.Bind = "" → "bind" ∉ (encodeStruct SwapInfo.fields s).json.keys) ∧
    (s.Identifier = "" → "identifier" ∉ (encodeStruct SwapInfo.fields s).json.keys) ∧
    (s.Reswapping = false → "reswapping" ∉ (encodeStruct SwapInfo.fields s).json.keys) := by
  refine ⟨?_, ?_, ?_, ?_, ?_, ?_, ?_⟩ <;> intro h <;> rw [mem_keys_encodeStruct] <;>
    simp [SwapInfo.fields, field, encString, encUint, encBool, h]

theorem BuildTxArgs_omitempty (a : BuildTxArgs) :
    (a.From = "" → "from" ∉ (BuildTxArgs.marshal a).keys) ∧
    (a.To = "" → "to" ∉ (BuildTxArgs.marshal a).keys) ∧
    (a.OriginFrom = "" → "originFrom" ∉ (BuildTxArgs.marshal a).keys) ∧
    (a.OriginTxTo = "" → "originTxTo" ∉ (BuildTxArgs.marshal a).keys) ∧
    (a.Value = none → "value" ∉ (BuildTxArgs.marshal a).keys) ∧
    (a.OriginValue = none → "originValue" ∉ (BuildTxArgs.marshal a).keys) ∧
    (a.SwapValue = none → "swapvalue" ∉ (BuildTxArgs.marshal a).keys) ∧
    (a.Memo = "" → "memo" ∉ (BuildTxArgs.marshal a).keys) ∧
    (a.Input = none → "input" ∉ (BuildTxArgs.marshal a).keys) ∧
    (a.Extra = none → "extra" ∉ (BuildTxArgs.marshal a).keys) := by
  refine ⟨?_, ?_, ?_, ?_, ?_, ?_, ?_, ?_, ?_, ?_⟩ <;> intro h <;>
    rw [BuildTxArgs.marshal, mem_keys_encodeStruct] <;>
    simp [BuildTxArgs.fields, field, encString, encPtr, h]

theorem AllExtras_omitempty (x : AllExtras) :
    (x.ReplaceNum = 0 → "replaceNum" ∉ (encodeStruct AllExtras.fields x).json.keys) ∧
    (x.BtcExtra = none → "btcExtra" ∉ (encodeStruct AllExtras.fields x).json.keys) ∧
    (x.EthExtra = none → "ethExtra" ∉ (encodeStruct AllExtras.fields x).json.keys) ∧
    (x.RippleExtra = none → "rippleExtra" ∉ (encodeStruct AllExtras.fields x).json.keys) ∧
    (x.TerraExtra = none → "terraExtra" ∉ (encodeStruct AllExtras.fields x).json.keys) := by
  refine ⟨?_, ?_, ?_, ?_, ?_⟩ <;> intro h <;> rw [mem_keys_encodeStruct] <;>
    simp [AllExtras.fields, field, encUint, encPtr, h]

theorem EthExtraArgs_omitempty (e : EthExtraArgs) :
    (e.Gas = none → "gas" ∉ (encodeStruct EthExtraArgs.fields e).json.keys) ∧
    (e.GasPrice = none → "gasPrice" ∉ (encodeStruct EthExtraArgs.fields e).json.keys) ∧
    (e.GasTipCap = none → "gasTipCap" ∉ (encodeStruct EthExtraArgs.fields e).json.keys) ∧
    (e.GasFeeCap = none → "gasFeeCap" ∉ (encodeStruct EthExtraArgs.fields e).json.keys) ∧
    (e.Nonce = none → "nonce" ∉ (encodeStruct EthExtraArgs.fields e).json.keys) := by
  refine ⟨?_, ?_, ?_, ?_, ?_⟩ <;> intro h <;> rw [mem_keys_encodeStruct] <;>
    simp [EthExtraArgs.fields, field, encPtr, h]

theorem RippleTerra_omitempty (r : RippleExtra) (t : TerraExtra) :
    (r.Sequence = none → "sequence" ∉ (encodeStruct RippleExtra.fields r).json.keys) ∧
    (r.Fee = none → "fee" ∉ (encodeStruct RippleExtra.fields r).json.keys) ∧
    (t.Sequence = none → "sequence" ∉ (encodeStruct TerraExtra.fields t).json.keys) ∧
    (t.Fees = none → "fees" ∉ (encodeStruct TerraExtra.fields t).json.keys) ∧
    (t.Gas = none → "gas" ∉ (encodeStruct TerraExtra.fields t).json.keys) := by
  refine ⟨?_, ?_, ?_, ?_, ?_⟩ <;> intro h <;> rw [mem_keys_encodeStruct] <;>
    simp [RippleExtra.fields, TerraExtra.fields, field, encPtr, h]

theorem BtcTxStatus_omitempty (b : BtcExtraArgs) (st : TxStatus) :
    (b.RelayFeePerKb = none → "relayFeePerKb" ∉ (BtcExtraArgs.marshal b).keys) ∧
    (b.PreviousOutPoints = [] → "previousOutPoints" ∉ (BtcExtraArgs.marshal b).keys) ∧
    (st.Receipt = none → "receipt" ∉ (encodeStruct TxStatus.fields st).json.keys) := by
  refine ⟨?_, ?_, ?_⟩ <;> intro h <;>
    first
    | (rw [BtcExtraArgs.marshal, mem_keys_encodeStruct]
       simp [BtcExtraArgs.fields, field, encPtr, encSlice, h])
    | (rw [mem_keys_encodeStruct]
       simp [TxStatus.fields, field, encInterface, h])

/-- The `swapInfo` member is written for every value. -/
theorem swapInfo_key_present (a : BuildTxArgs) : "swapInfo" ∈ (BuildTxArgs.marshal a).keys := by
  rw [BuildTxArgs.marshal, mem_keys_encodeStruct]
  simp [BuildTxArgs.fields, field, encodeStruct]

/-- The encoding of a `BtcExtraArgs` is a function of `RelayFeePerKb` and
`PreviousOutPoints`. -/
theorem BtcExtraArgs_marshal_congr (b1 b2 : BtcExtraArgs)
    (hfee : b1.RelayFeePerKb = b2.RelayFeePerKb)
    (hout : b1.PreviousOutPoints = b2.PreviousOutPoints) :
    encodeStruct BtcExtraArgs.fields b1 = encodeStruct BtcExtraArgs.fields b2 := by
  simp [encodeStruct, BtcExtraArgs.fields, field, members, hfee, hout]

/-- The keys of an encoded `BtcExtraArgs` are among `relayFeePerKb` and
`previousOutPoints`. -/
theorem BtcExtraArgs_keys (b : BtcExtraArgs) (k : String)
    (hk : k ∈ (BtcExtraArgs.marshal b).keys) :
    k = "relayFeePerKb" ∨ k = "previousOutPoints" := by
  rw [BtcExtraArgs.marshal, mem_keys_encodeStruct] at hk
  obtain ⟨f, hf, oe, htag, -⟩ := hk
  simp only [BtcExtraArgs.fields, field, List.mem_cons, List.mem_singleton, List.mem_nil_iff,
    or_false] at hf
  rcases hf with rfl | rfl | rfl
  · left
    obtain ⟨h1, -⟩ : k = "relayFeePerKb" ∧ oe = true := by simpa using htag.symm
    exact h1
  · simp at htag
  · right
    obtain ⟨h1, -⟩ : k = "previousOutPoints" ∧ oe = true := by simpa using htag.symm
    exact h1

/-! ### Decoding what the encoder wrote -/

theorem decode_nil {S : Type} (fs : List (Field S)) (cur a : S) :
    decodeMembers fs cur (members (([] : List (Field S)).map fun g => (g.tag, g.get a))) = some cur := rfl

/-- One step of decoding what the encoder wrote: the member of an `omitempty`
field, present or left out, brings the target's field from `zero` to `v1`. -/
theorem decode_field_omitempty_to {S α : Type} (fs : List (Field S)) (cur a : S)
    (name : String) (get : S → α) (put : S → α → S) (enc : α → Encoded) (dec : Decoder α)
    (zero v1 : α) (rest : List (Field S))
    (hfind : findField fs name = some (field (.key name true) get put enc dec))
    (hcur : get cur = zero) (hput : put cur zero = cur)
    (hempty : (enc (get a)).isEmpty = true → v1 = zero)
    (hdec : (enc (get a)).isEmpty = false → dec zero (enc (get a)).json = some v1) :
    decodeMembers fs cur
        (members ((field (.key name true) get put enc dec :: rest).map fun g => (g.tag, g.get a))) =
      decodeMembers fs (put cur v1) (members (rest.map fun g => (g.tag, g.get a))) := by
  cases he : (enc (get a)).isEmpty with
  | true =>
    have hz := hempty he
    simp only [List.map, field, members, he, Bool.and_self, if_true]
    rw [hz, hput]
  | false =>
    have hd := hdec he
    simp only [List.map, field, members, he, Bool.and_false, Bool.false_eq_true, if_false,
      decodeMembers, setField, hfind]
    simp only [field, hcur, hd, Option.map_some', Option.bind_some, Option.some_bind]

theorem decode_field_omitempty {S α : Type} (fs : List (Field S)) (cur a : S) (name : String)
    (get : S → α) (put : S → α → S) (enc : α → Encoded) (dec : Decoder α) (zero : α)
    (rest : List (Field S))
    (hfind : findField fs name = some (field (.key name true) get put enc dec))
    (hcur : get cur = zero) (hput : put cur zero = cur)
    (hempty : (enc (get a)).isEmpty = true → get a = zero)
    (hdec : (enc (get a)).isEmpty = false → dec zero (enc (get a)).json = some (get a)) :
    decodeMembers fs cur
        (members ((field (.key name true) get put enc dec :: rest).map fun g => (g.tag, g.get a))) =
      decodeMembers fs (put cur (get a)) (members (rest.map fun g => (g.tag, g.get a))) :=
  decode_field_omitempty_to fs cur a name get put enc dec zero (get a) rest hfind hcur hput
    hempty hdec

theorem codec_string_empty (v : String) (h : (encString v).isEmpty = true) : v = "" := by
  simpa [encString] using h
theorem codec_string_dec (v cur : String) : decString cur (encString v).json = some v := rfl
theorem codec_bool_empty (v : Bool) (h : (encBool v).isEmpty = true) : v = false := by
  simpa [encBool] using h
theorem codec_bool_dec (v cur : Bool) : decBool cur (encBool v).json = some v := rfl
theorem codec_uint_empty (v : Nat) (h : (encUint v).isEmpty = true) : v = 0 := by
  simpa [encUint] using h
theorem codec_uint_dec (bits v cur : Nat) (h : v < 2 ^ bits) :
    decUint bits cur (encUint v).json = some v := by
  have h2 : ((v : Int) < 2 ^ bits) := by exact_mod_cast h
  simp [decUint, encUint, h2]

theorem codec_ptr_empty {α : Type} (enc : α → Encoded) (p : Ptr α)
    (h : (encPtr enc p).isEmpty = true) : p = none := by
  cases p with
  | none => rfl
  | some v => simp [encPtr] at h

theorem codec_ptr_dec {α : Type} (enc : α → Encoded) (dec : Decoder α) (zero : α) (p : Ptr α)
    (hnull : ∀ v, (enc v).json ≠ Json.null)
    (hdec : ∀ v, p = some v → dec zero (enc v).json = some v)
    (h : (encPtr enc p).isEmpty = false) :
    decPtr zero dec none (encPtr enc p).json = some p := by
  cases p with
  | none => simp [encPtr] at h
  | some v =>
    have h1 := hdec v rfl
    have h2 := hnull v
    simp only [encPtr, decPtr]
    cases hj : (enc v).json with
    | null => exact absurd hj h2
    | bool b => simp [← hj, h1]
    | num n => simp [← hj, h1]
    | str t => simp [← hj, h1]
    | base64 bs => simp [← hj, h1]
    | arr es => simp [← hj, h1]
    | obj ms => simp [← hj, h1]

theorem encUint_ne_null (v : Nat) : (encUint v).json ≠ Json.null := by
  simp [encUint]

theorem encBigInt_ne_null (v : Int) : (encBigInt v).json ≠ Json.null := by
  simp [encBigInt]

theorem encodeStruct_ne_null {S : Type} (fs : List (Field S)) (v : S) :
    (encodeStruct fs v).json ≠ Json.null := by
  simp [encodeStruct]

theorem codec_bigInt_dec (v cur : Int) : decBigInt cur (encBigInt v).json = some v := rfl

/-- What a `*[]byte` decodes to after encoding: a pointer to the nil slice is
written as `null` and comes back as the nil pointer; any other value comes back
as itself. -/
theorem codec_input_empty (p : Ptr Bytes) (h : (encPtr encBytes p).isEmpty = true) :
    (if p = some none then none else p) = none := by
  cases p with
  | none => rfl
  | some b => simp [encPtr] at h

theorem codec_input_dec (p : Ptr Bytes) (h : (encPtr encBytes p).isEmpty = false) :
    decPtr none decBytes none (encPtr encBytes p).json =
      some (if p = some none then none else p) := by
  cases p with
  | none => simp [encPtr] at h
  | some b =>
    cases b with
    | none => rfl
    | some bs => rfl

/-- Decoding an encoded `SwapInfo` into a fresh one gives it back. -/
theorem SwapInfo_roundtrip (s : SwapInfo) (hwt : s.wellTyped = true) :
    decodeStruct SwapInfo.fields {} (encodeStruct SwapInfo.fields s).json = some s := by
  have h1 : s.SwapType < 2 ^ 32 := by
    simp [SwapInfo.wellTyped, isUint] at hwt; exact hwt.1
  have h2 : s.TxType < 2 ^ 32 := by
    simp [SwapInfo.wellTyped, isUint] at hwt; exact hwt.2
  show decodeMembers SwapInfo.fields {}
    (members (SwapInfo.fields.map fun g => (g.tag, g.get s))) = some s
  nth_rewrite 2 [SwapInfo.fields]
  rw [decode_field_omitempty SwapInfo.fields _ s "pairid" _ _ _ _ "" _ rfl rfl rfl
    (codec_string_empty _) (fun _ => codec_string_dec _ _)]
  rw [decode_field_omitempty SwapInfo.fields _ s "swapid" _ _ _ _ "" _ rfl rfl rfl
    (codec_string_empty _) (fun _ => codec_string_dec _ _)]
  rw [decode_field_omitempty SwapInfo.fields _ s "swaptype" _ _ _ _ 0 _ rfl rfl rfl
    (codec_uint_empty _) (fun _ => codec_uint_dec 32 _ _ h1)]
  rw [decode_field_omitempty SwapInfo.fields _ s "txtype" _ _ _ _ 0 _ rfl rfl rfl
    (codec_uint_empty _) (fun _ => codec_uint_dec 32 _ _ h2)]
  rw [decode_field_omitempty SwapInfo.fields _ s "bind" _ _ _ _ "" _ rfl rfl rfl
    (codec_string_empty _) (fun _ => codec_string_dec _ _)]
  rw [decode_field_omitempty SwapInfo.fields _ s "identifier" _ _ _ _ "" _ rfl rfl rfl
    (codec_string_empty _) (fun _ => codec_string_dec _ _)]
  rw [decode_field_omitempty SwapInfo.fields _ s "reswapping" _ _ _ _ false _ rfl rfl rfl
    (codec_bool_empty _) (fun _ => codec_bool_dec _ _)]
  rw [decode_nil]

/-- Decoding an encoded `EthExtraArgs` into a fresh one gives it back. -/
theorem EthExtraArgs_roundtrip (e : EthExtraArgs) (hwt : e.wellTyped = true) :
    decodeStruct EthExtraArgs.fields {} (encodeStruct EthExtraArgs.fields e).json = some e := by
  have h1 : ∀ v, e.Gas = some v → v < 2 ^ 64 := by
    intro v hv
    simp [EthExtraArgs.wellTyped, isUint, hv] at hwt; exact hwt.1
  have h2 : ∀ v, e.Nonce = some v → v < 2 ^ 64 := by
    intro v hv
    simp [EthExtraArgs.wellTyped, isUint, hv] at hwt; exact hwt.2
  show decodeMembers EthExtraArgs.fields {}
    (members (EthExtraArgs.fields.map fun g => (g.tag, g.get e))) = some e
  nth_rewrite 2 [EthExtraArgs.fields]
  rw [decode_field_omitempty EthExtraArgs.fields _ e "gas" _ _ _ _ none _ rfl rfl rfl
    (codec_ptr_empty _ _)
    (codec_ptr_dec _ _ _ _ encUint_ne_null (fun v hv => codec_uint_dec 64 _ _ (h1 v hv)))]
  rw [decode_field_omitempty EthExtraArgs.fields _ e "gasPrice" _ _ _ _ none _ rfl rfl rfl
    (codec_ptr_empty _ _)
    (codec_ptr_dec _ _ _ _ encBigInt_ne_null (fun v _ => codec_bigInt_dec _ _))]
  rw [decode_field_omitempty EthExtraArgs.fields _ e "gasTipCap" _ _ _ _ none _ rfl rfl rfl
    (codec_ptr_empty _ _)
    (codec_ptr_dec _ _ _ _ encBigInt_ne_null (fun v _ => codec_bigInt_dec _ _))]
  rw [decode_field_omitempty EthExtraArgs.fields _ e "gasFeeCap" _ _ _ _ none _ rfl rfl rfl
    (codec_ptr_empty _ _)
    (codec_ptr_dec _ _ _ _ encBigInt_ne_null (fun v _ => codec_bigInt_dec _ _))]
  rw [decode_field_omitempty EthExtraArgs.fields _ e "nonce" _ _ _ _ none _ rfl rfl rfl
    (codec_ptr_empty _ _)
    (codec_ptr_dec _ _ _ _ encUint_ne_null (fun v hv => codec_uint_dec 64 _ _ (h2 v hv)))]
  rw [decode_nil]

/-- Decoding an encoded `AllExtras` without Btc, Ripple and Terra sub-variant
into a fresh one gives it back. -/
theorem AllExtras_roundtrip (x : AllExtras) (hwt : x.wellTyped = true)
    (hb : x.BtcExtra = none) (hr : x.RippleExtra = none) (ht : x.TerraExtra = none) :
    decodeStruct AllExtras.fields {} (encodeStruct AllExtras.fields x).json = some x := by
  have h1 : x.ReplaceNum < 2 ^ 64 := by
    simp [AllExtras.wellTyped, isUint] at hwt; exact hwt.1.1.1.1
  have h2 : ∀ e, x.EthExtra = some e → e.wellTyped = true := by
    intro e he
    simp [AllExtras.wellTyped, he] at hwt; exact hwt.1.1.2
  show decodeMembers AllExtras.fields {}
    (members (AllExtras.fields.map fun g => (g.tag, g.get x))) = some x
  nth_rewrite 2 [AllExtras.fields]
  rw [decode_field_omitempty AllExtras.fields _ x "replaceNum" _ _ _ _ 0 _ rfl rfl rfl
    (codec_uint_empty _) (fun _ => codec_uint_dec 64 _ _ h1)]
  rw [decode_field_omitempty AllExtras.fields _ x "btcExtra" _ _ _ _ none _ rfl rfl rfl
    (codec_ptr_empty _ _) (fun h => absurd h (by simp [encPtr, hb]))]
  rw [decode_field_omitempty AllExtras.fields _ x "ethExtra" _ _ _ _ none _ rfl rfl rfl
    (codec_ptr_empty _ _)
    (codec_ptr_dec _ _ _ _ (encodeStruct_ne_null _)
      (fun e he => EthExtraArgs_roundtrip e (h2 e he)))]
  rw [decode_field_omitempty AllExtras.fields _ x "rippleExtra" _ _ _ _ none _ rfl rfl rfl
    (codec_ptr_empty _ _) (fun h => absurd h (by simp [encPtr, hr]))]
  rw [decode_field_omitempty AllExtras.fields _ x "terraExtra" _ _ _ _ none _ rfl rfl rfl
    (codec_ptr_empty _ _) (fun h => absurd h (by simp [encPtr, ht]))]
  rw [decode_nil]

/-- The `swapInfo` member, never omitted, is decoded into the `SwapInfo` field. -/
theorem decode_swapInfo (cur a : BuildTxArgs) (rest : List (Field BuildTxArgs))
    (hcur : cur.SwapInfo = {}) (hwt : a.SwapInfo.wellTyped = true) :
    decodeMembers BuildTxArgs.fields cur
        (members ((field (.key "swapInfo" true) (·.SwapInfo)
            (fun s v => { s with SwapInfo := v })
            (encodeStruct SwapInfo.fields) (decodeStruct SwapInfo.fields) :: rest).map
          fun g => (g.tag, g.get a))) =
      decodeMembers BuildTxArgs.fields { cur with SwapInfo := a.SwapInfo }
        (members (rest.map fun g => (g.tag, g.get a))) :=
  decode_field_omitempty BuildTxArgs.fields cur a "swapInfo" _ _ _ _ {} rest rfl hcur
    (by cases cur; simp_all) (fun h => absurd h (by simp [encodeStruct]))
    (fun _ => SwapInfo_roundtrip a.SwapInfo hwt)

/-- Decoding an encoded `BuildTxArgs` whose extras hold no Btc, Ripple or
Terra sub-variant into a fresh one gives it back, except that an `Input`
pointing at the nil slice, which is written as `null`, comes back as the nil
pointer. -/
theorem BuildTxArgs_roundtrip (a : BuildTxArgs) (hwt : a.wellTyped = true)
    (hx : ∀ x, a.Extra = some x →
      x.BtcExtra = none ∧ x.RippleExtra = none ∧ x.TerraExtra = none) :
    BuildTxArgs.unmarshal (BuildTxArgs.marshal a) =
      some { a with Input := if a.Input = some none then none else a.Input } := by
  have h1 : a.SwapInfo.wellTyped = true := by
    simp [BuildTxArgs.wellTyped] at hwt; exact hwt.1.1
  have h2 : ∀ x, a.Extra = some x → x.wellTyped = true := by
    intro x hxx
    simp [BuildTxArgs.wellTyped, hxx] at hwt; exact hwt.2
  show decodeMembers BuildTxArgs.fields {}
    (members (BuildTxArgs.fields.map fun g => (g.tag, g.get a))) =
      some { a with Input := if a.Input = some none then none else a.Input }
  nth_rewrite 2 [BuildTxArgs.fields]
  rw [decode_swapInfo _ a _ rfl h1]
  rw [decode_field_omitempty BuildTxArgs.fields _ a "from" _ _ _ _ "" _ rfl rfl rfl
    (codec_string_empty _) (fun _ => codec_string_dec _ _)]
  rw [decode_field_omitempty BuildTxArgs.fields _ a "to" _ _ _ _ "" _ rfl rfl rfl
    (codec_string_empty _) (fun _ => codec_string_dec _ _)]
  rw [decode_field_omitempty BuildTxArgs.fields _ a "originFrom" _ _ _ _ "" _ rfl rfl rfl
    (codec_string_empty _) (fun _ => codec_string_dec _ _)]
  rw [decode_field_omitempty BuildTxArgs.fields _ a "originTxTo" _ _ _ _ "" _ rfl rfl rfl
    (codec_string_empty _) (fun _ => codec_string_dec _ _)]
  rw [decode_field_omitempty BuildTxArgs.fields _ a "value" _ _ _ _ none _ rfl rfl rfl
    (codec_ptr_empty _ _)
    (codec_ptr_dec _ _ _ _ encBigInt_ne_null (fun v _ => codec_bigInt_dec _ _))]
  rw [decode_field_omitempty BuildTxArgs.fields _ a "originValue" _ _ _ _ none _ rfl rfl rfl
    (codec_ptr_empty _ _)
    (codec_ptr_dec _ _ _ _ encBigInt_ne_null (fun v _ => codec_bigInt_dec _ _))]
  rw [decode_field_omitempty BuildTxArgs.fields _ a "swapvalue" _ _ _ _ none _ rfl rfl rfl
    (codec_ptr_empty _ _)
    (codec_ptr_dec _ _ _ _ encBigInt_ne_null (fun v _ => codec_bigInt_dec _ _))]
  rw [decode_field_omitempty BuildTxArgs.fields _ a "memo" _ _ _ _ "" _ rfl rfl rfl
    (codec_string_empty _) (fun _ => codec_string_dec _ _)]
  rw [decode_field_omitempty_to BuildTxArgs.fields _ a "input" _ _ _ _ none
    (if a.Input = some none then none else a.Input) _ rfl rfl rfl
    (codec_input_empty _) (codec_input_dec _)]
  rw [decode_field_omitempty BuildTxArgs.fields _ a "extra" _ _ _ _ none _ rfl rfl rfl
    (codec_ptr_empty _ _)
    (codec_ptr_dec _ _ _ _ (encodeStruct_ne_null _)
      (fun x hxx => AllExtras_roundtrip x (h2 x hxx) (hx x hxx).1 (hx x hxx).2.1
        (hx x hxx).2.2))]
  rw [decode_nil]

/-! ### Receivers that share their extras -/

/-- What a setter call leaves in `Extra` depends on the receiver's `Extra` only. -/
theorem SetterCall_run_extra (call : SetterCall) (a b : BuildTxArgs) (h : a.Extra = b.Extra) :
    ∃ a1 b1, call.run (some a) = Outcome.ok (some a1) ∧ call.run (some b) = Outcome.ok (some b1) ∧
      a1.Extra = b1.Extra := by
  cases call with
  | setTxNonce n =>
    cases hx : b.Extra with
    | none =>
      exact ⟨a, b, by simp [SetterCall.run, BuildTxArgs.SetTxNonce, h, hx],
        by simp [SetterCall.run, BuildTxArgs.SetTxNonce, hx], h⟩
    | some x =>
      rw [hx] at h
      cases he : x.EthExtra <;> cases hr : x.RippleExtra <;> cases ht : x.TerraExtra <;>
        simp [SetterCall.run, BuildTxArgs.SetTxNonce, h, hx, he, hr, ht]
  | setTxGasPrice g =>
    cases hx : b.Extra with
    | none =>
      exact ⟨a, b, by simp [SetterCall.run, BuildTxArgs.SetTxGasPrice, h, hx],
        by simp [SetterCall.run, BuildTxArgs.SetTxGasPrice, hx], h⟩
    | some x =>
      rw [hx] at h
      cases he : x.EthExtra <;>
        simp [SetterCall.run, BuildTxArgs.SetTxGasPrice, h, hx, he]
  | setReplaceNum n =>
    cases hx : b.Extra with
    | none =>
      exact ⟨a, b, by simp [SetterCall.run, BuildTxArgs.SetReplaceNum, h, hx],
        by simp [SetterCall.run, BuildTxArgs.SetReplaceNum, hx], h⟩
    | some x =>
      rw [hx] at h
      simp [SetterCall.run, BuildTxArgs.SetReplaceNum, h, hx]

/-- Two receivers in memory with the same `Extra` pointer: a setter call
through either changes memory alike. -/
theorem callSetter_same_extras (m : Memory) (p q : Addr) (cp cq : ArgsCell)
    (call : SetterCall) (hp : m.args[p]? = some cp) (hq : m.args[q]? = some cq)
    (hE : cp.Extra = cq.Extra) :
    m.callSetter (some p) call = m.callSetter (some q) call := by
  cases hx : cq.Extra with
  | none =>
    have hx1 : cp.Extra = none := hE.trans hx
    obtain ⟨a1, b1, h1, h2, -⟩ := SetterCall_run_extra call (cp.value none) (cq.value none) rfl
    simp [Memory.callSetter, Memory.valueAt, Memory.loadArgs, hp, hq, hx, hx1, h1, h2]
  | some xa =>
    have hx1 : cp.Extra = some xa := hE.trans hx
    cases hxa : m.extras[xa]? with
    | none =>
      simp [Memory.callSetter, Memory.valueAt, Memory.loadArgs, Memory.loadExtras, hp, hq, hx,
        hx1, hxa]
    | some x =>
      obtain ⟨a1, b1, h1, h2, h3⟩ :=
        SetterCall_run_extra call (cp.value (some x)) (cq.value (some x)) rfl
      simp [Memory.callSetter, Memory.valueAt, Memory.loadArgs, Memory.loadExtras, hp, hq, hx,
        hx1, hxa, h1, h2, h3]

/-! ## Nonce round trips, one chain family at a time -/

/-- C1, as stated, fails: on extras holding only a `RippleExtra`, setting the
`uint64` nonce `2 ^ 32` and reading it back returns `0`. -/
theorem C1_ripple_nonce_roundtrip_counterexample :
    (2 ^ 32 < 2 ^ 64) ∧
    rippleOnlyArgs.Extra = some { RippleExtra := some {} } ∧
    setThenGetNonce (some rippleOnlyArgs) (2 ^ 32) = Outcome.ok 0 ∧
    setThenGetNonce (some rippleOnlyArgs) (2 ^ 32) ≠ Outcome.ok (2 ^ 32) := by
  refine ⟨by decide, rfl, by decide, by decide⟩

/-- C1, amended: when `RippleExtra` is the only populated sub-variant,
`SetTxNonce(N)` followed by `GetTxNonce()` returns `N mod 2 ^ 32` (the nonce is
stored as a `uint32`), hence `N` itself whenever `N < 2 ^ 32`. -/
theorem C1_ripple_nonce_roundtrip_mod32 (a : BuildTxArgs) (x : AllExtras) (r : RippleExtra)
    (N : Nat) (_hN : N < 2 ^ 64) (hx : a.Extra = some x) (hr : x.RippleExtra = some r)
    (he : x.EthExtra = none) (_ht : x.TerraExtra = none) (_hb : x.BtcExtra = none) :
    setThenGetNonce (some a) N = Outcome.ok (N % 2 ^ 32) ∧
    (N < 2 ^ 32 → setThenGetNonce (some a) N = Outcome.ok N) := by
  have h : setThenGetNonce (some a) N = Outcome.ok (N % 2 ^ 32) := by
    simp [setThenGetNonce, BuildTxArgs.SetTxNonce, BuildTxArgs.GetTxNonce, hx, hr, he]
  refine ⟨h, fun hlt => ?_⟩
  rw [h, Nat.mod_eq_of_lt hlt]

/-- C1 witness: nonce `2 ^ 32 + 5` on `rippleOnlyArgs` reads back as `5`. -/
theorem C1_ripple_nonce_roundtrip_mod32_witness :
    setThenGetNonce (some rippleOnlyArgs) (2 ^ 32 + 5) = Outcome.ok ((2 ^ 32 + 5) % 2 ^ 32) ∧
    (2 ^ 32 + 5 < 2 ^ 32 →
      setThenGetNonce (some rippleOnlyArgs) (2 ^ 32 + 5) = Outcome.ok (2 ^ 32 + 5)) :=
  C1_ripple_nonce_roundtrip_mod32 rippleOnlyArgs { RippleExtra := some {} } {} (2 ^ 32 + 5)
    (by decide) rfl rfl rfl rfl rfl

/-- C2: when `EthExtra` is the only populated sub-variant, `SetTxNonce(N)`
followed by `GetTxNonce()` returns `N`, whatever `EthExtra.Nonce` held before. -/
theorem C2_eth_nonce_roundtrip (a : BuildTxArgs) (x : AllExtras) (e : EthExtraArgs)
    (N : Nat) (_hN : N < 2 ^ 64) (hx : a.Extra = some x) (he : x.EthExtra = some e)
    (_hr : x.RippleExtra = none) (_ht : x.TerraExtra = none) (_hb : x.BtcExtra = none) :
    setThenGetNonce (some a) N = Outcome.ok N := by
  simp [setThenGetNonce, BuildTxArgs.SetTxNonce, BuildTxArgs.GetTxNonce, hx, he]

/-- C2 witness: nonce `2 ^ 64 - 1` on `ethOnlyArgs`, whose previous nonce is `9`. -/
theorem C2_eth_nonce_roundtrip_witness :
    setThenGetNonce (some ethOnlyArgs) (2 ^ 64 - 1) = Outcome.ok (2 ^ 64 - 1) :=
  C2_eth_nonce_roundtrip ethOnlyArgs
    { ReplaceNum := 1, EthExtra := some { GasPrice := some 7, Nonce := some 9 } }
    { GasPrice := some 7, Nonce := some 9 } (2 ^ 64 - 1) (by decide) rfl rfl rfl rfl rfl

/-- C3: when `TerraExtra` is the only populated sub-variant, `SetTxNonce(N)`
followed by `GetTxNonce()` returns `N`. -/
theorem C3_terra_nonce_roundtrip (a : BuildTxArgs) (x : AllExtras) (t : TerraExtra)
    (N : Nat) (_hN : N < 2 ^ 64) (hx : a.Extra = some x) (ht : x.TerraExtra = some t)
    (he : x.EthExtra = none) (hr : x.RippleExtra = none) (_hb : x.BtcExtra = none) :
    setThenGetNonce (some a) N = Outcome.ok N := by
  simp [setThenGetNonce, BuildTxArgs.SetTxNonce, BuildTxArgs.GetTxNonce, hx, ht, he, hr]

/-- C3 witness: nonce `2 ^ 32` on `terraOnlyArgs` is kept in full. -/
theorem C3_terra_nonce_roundtrip_witness :
    setThenGetNonce (some terraOnlyArgs) (2 ^ 32) = Outcome.ok (2 ^ 32) :=
  C3_terra_nonce_roundtrip terraOnlyArgs { TerraExtra := some { Fees := some "1uluna" } }
    { Fees := some "1uluna" } (2 ^ 32) (by decide) rfl rfl rfl rfl rfl

/-! ## The accessors return normally -/

/-- On a non-nil receiver, whatever its `Extra`, sub-variants and optional
fields hold, all seven accessors return normally. -/
theorem accessors_return_on_non_nil_receiver (a : BuildTxArgs) (m : Memory) (p : Addr)
    (c : ArgsCell) (gasPrice : Ptr Int) (nonce replaceNum : Nat) :
    (BuildTxArgs.GetReplaceNum (some a)).returns = true ∧
    (m.args[p]? = some c → (BuildTxArgs.GetExtraArgs m (some p)).returns = true) ∧
    (BuildTxArgs.GetTxGasPrice (some a)).returns = true ∧
    (BuildTxArgs.GetTxNonce (some a)).returns = true ∧
    (BuildTxArgs.SetTxGasPrice (some a) gasPrice).returns = true ∧
    (BuildTxArgs.SetTxNonce (some a) nonce).returns = true ∧
    (BuildTxArgs.SetReplaceNum (some a) replaceNum).returns = true := by
  refine ⟨?_, ?_, ?_, ?_, ?_, ?_, ?_⟩
  · cases hx : a.Extra <;> simp [BuildTxArgs.GetReplaceNum, Outcome.returns, hx]
  · intro hp
    simp [BuildTxArgs.GetExtraArgs, Memory.loadArgs, hp, Outcome.returns]
  · cases hx : a.Extra with
    | none => simp [BuildTxArgs.GetTxGasPrice, Outcome.returns, hx]
    | some x =>
      cases he : x.EthExtra <;> simp [BuildTxArgs.GetTxGasPrice, Outcome.returns, hx, he]
  · cases hx : a.Extra with
    | none => rw [GetTxNonce_of_no_extra a hx]; rfl
    | some x => rw [GetTxNonce_of_extra a x hx]; rfl
  · cases hx : a.Extra with
    | none => simp [BuildTxArgs.SetTxGasPrice, Outcome.returns, hx]
    | some x =>
      cases he : x.EthExtra <;> simp [BuildTxArgs.SetTxGasPrice, Outcome.returns, hx, he]
  · cases hx : a.Extra with
    | none => simp [BuildTxArgs.SetTxNonce, Outcome.returns, hx]
    | some x =>
      cases he : x.EthExtra <;> cases hr : x.RippleExtra <;> cases ht : x.TerraExtra <;>
        simp [BuildTxArgs.SetTxNonce, Outcome.returns, hx, he, hr, ht]
  · cases hx : a.Extra <;> simp [BuildTxArgs.SetReplaceNum, Outcome.returns, hx]

/-- C4, on the code: on a nil receiver each of the four getters selects
`args.Extra` (or `args.SwapInfo`) without testing the receiver and panics,
while each of the three setters tests `args != nil` first and returns, leaving
the receiver nil. On every non-nil receiver all seven accessors return
normally. -/
theorem C4_getters_panic_on_nil_receiver (a : BuildTxArgs) (m : Memory) (p : Addr)
    (c : ArgsCell) (gasPrice : Ptr Int) (nonce replaceNum : Nat) :
    (BuildTxArgs.GetReplaceNum none = Outcome.nilDeref ∧
      BuildTxArgs.GetExtraArgs m none = Outcome.nilDeref ∧
      BuildTxArgs.GetTxGasPrice none = Outcome.nilDeref ∧
      BuildTxArgs.GetTxNonce none = Outcome.nilDeref) ∧
    (BuildTxArgs.SetTxGasPrice none gasPrice = Outcome.ok none ∧
      BuildTxArgs.SetTxNonce none nonce = Outcome.ok none ∧
      BuildTxArgs.SetReplaceNum none replaceNum = Outcome.ok none) ∧
    ((BuildTxArgs.GetReplaceNum (some a)).returns = true ∧
      (m.args[p]? = some c → (BuildTxArgs.GetExtraArgs m (some p)).returns = true) ∧
      (BuildTxArgs.GetTxGasPrice (some a)).returns = true ∧
      (BuildTxArgs.GetTxNonce (some a)).returns = true ∧
      (BuildTxArgs.SetTxGasPrice (some a) gasPrice).returns = true ∧
      (BuildTxArgs.SetTxNonce (some a) nonce).returns = true ∧
      (BuildTxArgs.SetReplaceNum (some a) replaceNum).returns = true) :=
  ⟨⟨rfl, rfl, rfl, rfl⟩, ⟨rfl, rfl, rfl⟩,
    accessors_return_on_non_nil_receiver a m p c gasPrice nonce replaceNum⟩

/-! ## Nonce dispatch -/

/-- C5: `SetTxNonce` returns normally and writes exactly one place. With extras
present the receiver afterwards is the receiver before with only
`EthExtra.Nonce` replaced when `EthExtra` is non-nil, else only
`RippleExtra.Sequence` when `RippleExtra` is non-nil, else only
`TerraExtra.Sequence` when `TerraExtra` is non-nil, else nothing; every other
field, the later sub-variants included, keeps its value. With nil extras the
receiver is unchanged. -/
theorem C5_SetTxNonce_writes_first_variant_only (a : BuildTxArgs) (N : Nat) :
    BuildTxArgs.SetTxNonce (some a) N = Outcome.ok (some
      (match a.Extra with
        | none => a
        | some x =>
          match x.EthExtra, x.RippleExtra, x.TerraExtra with
          | some e, _, _ =>
            { a with Extra := some { x with EthExtra := some { e with Nonce := some N } } }
          | none, some r, _ =>
            { a with Extra := some { x with RippleExtra := some { r with Sequence := some (N % 2 ^ 32) } } }
          | none, none, some t =>
            { a with Extra := some { x with TerraExtra := some { t with Sequence := some N } } }
          | none, none, none => a)) := by
  cases hx : a.Extra with
  | none => simp [BuildTxArgs.SetTxNonce, hx]
  | some x =>
    cases he : x.EthExtra <;> cases hr : x.RippleExtra <;> cases ht : x.TerraExtra <;>
      simp [BuildTxArgs.SetTxNonce, hx, he, hr, ht]

/-- C5 on the multi-variant state `mixedArgs`: only `EthExtra.Nonce` is
written; the Ripple and Terra sequences, `ReplaceNum`, the gas fields, the fee
and `BtcExtra` keep their values. -/
theorem C5_SetTxNonce_writes_first_variant_only_witness :
    BuildTxArgs.SetTxNonce (some mixedArgs) 6 = Outcome.ok (some
      { From := "f", To := "t",
        Extra := some
          { ReplaceNum := 2,
            BtcExtra := some { RelayFeePerKb := some 2000, PreviousOutPoints := [some { Hash := "h", Index := 1 }] },
            EthExtra := some { Gas := some 21000, GasPrice := some 7, Nonce := some 6 },
            RippleExtra := some { Sequence := some 4, Fee := some 10 },
            TerraExtra := some { Sequence := some 8, Gas := some 3 } } }) :=
  C5_SetTxNonce_writes_first_variant_only mixedArgs 6

/-- C6: with extras present, `GetTxNonce` returns `EthExtra.Nonce` when
`EthExtra` and its `Nonce` are set, whatever the other sub-variants hold;
otherwise `RippleExtra.Sequence` when `RippleExtra` and its `Sequence` are set;
otherwise `TerraExtra.Sequence` when `TerraExtra` and its `Sequence` are set;
otherwise 0. -/
theorem C6_GetTxNonce_priority_chain (a : BuildTxArgs) (x : AllExtras) (hx : a.Extra = some x) :
    (∀ e n, x.EthExtra = some e → e.Nonce = some n →
      BuildTxArgs.GetTxNonce (some a) = Outcome.ok n) ∧
    (∀ r s, x.EthExtra.bind EthExtraArgs.Nonce = none →
      x.RippleExtra = some r → r.Sequence = some s →
      BuildTxArgs.GetTxNonce (some a) = Outcome.ok s) ∧
    (∀ t s, x.EthExtra.bind EthExtraArgs.Nonce = none →
      x.RippleExtra.bind RippleExtra.Sequence = none →
      x.TerraExtra = some t → t.Sequence = some s →
      BuildTxArgs.GetTxNonce (some a) = Outcome.ok s) ∧
    (x.EthExtra.bind EthExtraArgs.Nonce = none →
      x.RippleExtra.bind RippleExtra.Sequence = none →
      x.TerraExtra.bind TerraExtra.Sequence = none →
      BuildTxArgs.GetTxNonce (some a) = Outcome.ok 0) := by
  rw [GetTxNonce_of_extra a x hx]
  refine ⟨?_, ?_, ?_, ?_⟩
  · intro e n he hn
    simp [he, hn]
  · intro r s h1 hr hs
    simp [h1, hr, hs]
  · intro t s h1 h2 ht hs
    simp [h1, h2, ht, hs]
  · intro h1 h2 h3
    simp [h1, h2, h3]

/-- C6 witness on `mixedArgs`: the Eth nonce is unset, so the Ripple sequence 4
is returned although the Terra sequence 8 is set too. -/
theorem C6_GetTxNonce_priority_chain_witness :
    BuildTxArgs.GetTxNonce (some mixedArgs) = Outcome.ok 4 :=
  (C6_GetTxNonce_priority_chain mixedArgs _ rfl).2.1
    { Sequence := some 4, Fee := some 10 } 4 rfl rfl rfl

/-- C7: `GetTxNonce` returns 0 when `Extra` is nil, and when `Extra` is
non-nil but none of `EthExtra.Nonce`, `RippleExtra.Sequence`,
`TerraExtra.Sequence` is set, whatever the other fields hold. -/
theorem C7_GetTxNonce_zero_when_unset (a : BuildTxArgs)
    (h : a.Extra = none ∨
      ∃ x, a.Extra = some x ∧ x.EthExtra.bind EthExtraArgs.Nonce = none ∧
        x.RippleExtra.bind RippleExtra.Sequence = none ∧
        x.TerraExtra.bind TerraExtra.Sequence = none) :
    BuildTxArgs.GetTxNonce (some a) = Outcome.ok 0 := by
  rcases h with hx | ⟨x, hx, h1, h2, h3⟩
  · exact GetTxNonce_of_no_extra a hx
  · rw [GetTxNonce_of_extra a x hx]
    simp [h1, h2, h3]

/-- C7 witness: `btcOnlyArgs` has extras, a populated `BtcExtra` and no
sequencing field. -/
theorem C7_GetTxNonce_zero_when_unset_witness :
    BuildTxArgs.GetTxNonce (some btcOnlyArgs) = Outcome.ok 0 :=
  C7_GetTxNonce_zero_when_unset btcOnlyArgs (Or.inr ⟨_, rfl, rfl, rfl, rfl⟩)

/-! ## Gas price -/

/-- C8: when `Extra` is nil or `Extra.EthExtra` is nil, `SetTxGasPrice`
returns normally and leaves the receiver exactly as it was, whatever the other
sub-variants hold. -/
theorem C8_SetTxGasPrice_noop_without_eth (a : BuildTxArgs) (price : Ptr Int)
    (h : a.Extra = none ∨ ∃ x, a.Extra = some x ∧ x.EthExtra = none) :
    BuildTxArgs.SetTxGasPrice (some a) price = Outcome.ok (some a) := by
  rcases h with hx | ⟨x, hx, he⟩
  · simp [BuildTxArgs.SetTxGasPrice, hx]
  · simp [BuildTxArgs.SetTxGasPrice, hx, he]

/-- C8 witness: `rippleOnlyArgs` has a populated `RippleExtra` and no `EthExtra`. -/
theorem C8_SetTxGasPrice_noop_without_eth_witness :
    BuildTxArgs.SetTxGasPrice (some rippleOnlyArgs) (some 100) = Outcome.ok (some rippleOnlyArgs) :=
  C8_SetTxGasPrice_noop_without_eth rippleOnlyArgs (some 100) (Or.inr ⟨_, rfl, rfl⟩)

/-- C9: with `Extra` and `EthExtra` non-nil, `SetTxGasPrice(p)` leaves the
receiver equal to the one before with only `EthExtra.GasPrice` replaced by `p`
(nil included), and `GetTxGasPrice()` then returns `p`; with `Extra` or
`EthExtra` nil, `GetTxGasPrice()` returns nil. -/
theorem C9_gas_price_read_write (a : BuildTxArgs) (p : Ptr Int) :
    (∀ x e, a.Extra = some x → x.EthExtra = some e →
      BuildTxArgs.SetTxGasPrice (some a) p = Outcome.ok (some
        { a with Extra := some { x with EthExtra := some { e with GasPrice := p } } }) ∧
      setThenGetGasPrice (some a) p = Outcome.ok p) ∧
    ((a.Extra = none ∨ ∃ x, a.Extra = some x ∧ x.EthExtra = none) →
      BuildTxArgs.GetTxGasPrice (some a) = Outcome.ok none) := by
  refine ⟨?_, ?_⟩
  · intro x e hx he
    have hset : BuildTxArgs.SetTxGasPrice (some a) p = Outcome.ok (some
        { a with Extra := some { x with EthExtra := some { e with GasPrice := p } } }) := by
      simp [BuildTxArgs.SetTxGasPrice, hx, he]
    refine ⟨hset, ?_⟩
    simp [setThenGetGasPrice, hset, BuildTxArgs.GetTxGasPrice]
  · rintro (hx | ⟨x, hx, he⟩)
    · simp [BuildTxArgs.GetTxGasPrice, hx]
    · simp [BuildTxArgs.GetTxGasPrice, hx, he]

/-- C9 witness: on `ethOnlyArgs` the price 7 is replaced by nil and read back
as nil; on `terraOnlyArgs` the price reads as nil. -/
theorem C9_gas_price_read_write_witness :
    (BuildTxArgs.SetTxGasPrice (some ethOnlyArgs) none = Outcome.ok (some
        { From := "0xa", To := "0xb", Value := some 5,
          Extra := some { ReplaceNum := 1, EthExtra := some { GasPrice := none, Nonce := some 9 } } }) ∧
      setThenGetGasPrice (some ethOnlyArgs) none = Outcome.ok none) ∧
    BuildTxArgs.GetTxGasPrice (some terraOnlyArgs) = Outcome.ok none :=
  ⟨(C9_gas_price_read_write ethOnlyArgs none).1 _ _ rfl rfl,
   (C9_gas_price_read_write terraOnlyArgs none).2 (Or.inr ⟨_, rfl, rfl⟩)⟩

/-! ## Reduced copy -/

/-- C10: on a receiver in memory, `GetExtraArgs` returns the address `r` of a
new cell, different from the receiver's. The new cell has the receiver's
`SwapInfo` and the receiver's `Extra` pointer, the same address and so the
same `AllExtras` cell, and its other fields are zero: the strings empty, the
pointers nil. No `AllExtras` cell is allocated or written, every cell that was
in memory keeps its content, and the receiver stands for the same value as
before the call. Because the extras are shared, a setter call through the
result changes memory exactly as the same call through the receiver. -/
theorem C10_GetExtraArgs_reduced_copy (m : Memory) (p : Addr) (c : ArgsCell)
    (hp : m.args[p]? = some c) :
    ∃ r m1 rc, BuildTxArgs.GetExtraArgs m (some p) = Outcome.ok (some r, m1) ∧
      m1.args[r]? = some rc ∧ r ≠ p ∧
      rc.SwapInfo = c.SwapInfo ∧ rc.Extra = c.Extra ∧
      rc.From = "" ∧ rc.To = "" ∧ rc.OriginFrom = "" ∧ rc.OriginTxTo = "" ∧ rc.Memo = "" ∧
      rc.Value = none ∧ rc.OriginValue = none ∧ rc.SwapValue = none ∧ rc.Input = none ∧
      m1.extras = m.extras ∧ m1.args[p]? = some c ∧
      (∀ q, q < m.args.length → m1.args[q]? = m.args[q]?) ∧
      m1.valueAt (some p) = m.valueAt (some p) ∧
      (∀ call, m1.callSetter (some r) call = m1.callSetter (some p) call) := by
  have hlt : p < m.args.length := by
    by_contra hge
    rw [List.getElem?_eq_none (Nat.le_of_not_lt hge)] at hp
    exact absurd hp (by simp)
  have hkeep : ∀ q, q < m.args.length →
      (m.args ++ [({ SwapInfo := c.SwapInfo, Extra := c.Extra } : ArgsCell)])[q]? =
        m.args[q]? :=
    fun q hq => List.getElem?_append_left hq
  refine ⟨m.args.length, { m with args := m.args ++ [{ SwapInfo := c.SwapInfo, Extra := c.Extra }] },
    { SwapInfo := c.SwapInfo, Extra := c.Extra }, ?_, ?_, ?_, rfl, rfl, rfl, rfl, rfl, rfl, rfl,
    rfl, rfl, rfl, rfl, rfl, ?_, hkeep, ?_, ?_⟩
  · simp [BuildTxArgs.GetExtraArgs, Memory.loadArgs, hp]
  · simp
  · exact Nat.ne_of_gt hlt
  · rw [hkeep p hlt, hp]
  · simp only [Memory.valueAt, Memory.loadArgs, Memory.loadExtras, hkeep p hlt]
  · intro call
    exact callSetter_same_extras _ _ _ { SwapInfo := c.SwapInfo, Extra := c.Extra } c call
      (by simp) (by rw [hkeep p hlt, hp]) rfl

/-- C10 witness on `sampleMemory`, whose receiver at address 0 reads nonce 9
and replace counter 1: the result is the new cell at address 1 with the same
`Extra` address 0, and after `SetTxNonce(5)` and `SetReplaceNum(77)` through
the result the receiver reads 5 and 77. -/
theorem C10_GetExtraArgs_reduced_copy_witness :
    (∃ r m1 rc, BuildTxArgs.GetExtraArgs sampleMemory (some 0) = Outcome.ok (some r, m1) ∧
      m1.args[r]? = some rc ∧ r ≠ 0 ∧
      rc.SwapInfo = sampleCell.SwapInfo ∧ rc.Extra = sampleCell.Extra ∧
      rc.From = "" ∧ rc.To = "" ∧ rc.OriginFrom = "" ∧ rc.OriginTxTo = "" ∧ rc.Memo = "" ∧
      rc.Value = none ∧ rc.OriginValue = none ∧ rc.SwapValue = none ∧ rc.Input = none ∧
      m1.extras = sampleMemory.extras ∧ m1.args[0]? = some sampleCell ∧
      (∀ q, q < sampleMemory.args.length → m1.args[q]? = sampleMemory.args[q]?) ∧
      m1.valueAt (some 0) = sampleMemory.valueAt (some 0) ∧
      (∀ call, m1.callSetter (some r) call = m1.callSetter (some 0) call)) ∧
    BuildTxArgs.GetExtraArgs sampleMemory (some 0) = Outcome.ok (some 1,
      { extras := sampleMemory.extras, args := [sampleCell, { Extra := some 0 }] }) ∧
    sampleMemory.valueAt (some 0) = Outcome.ok (some ethOnlyArgs) ∧
    sampleMemory.GetTxNonce (some 0) = Outcome.ok 9 ∧
    sampleMemory.GetReplaceNum (some 0) = Outcome.ok 1 ∧
    setThroughCopyThenRead sampleMemory (some 0) 5 77 = Outcome.ok (5, 77) :=
  ⟨C10_GetExtraArgs_reduced_copy sampleMemory 0 sampleCell rfl, by decide, by decide,
    by decide, by decide, by decide⟩

/-! ## Replace counter -/

/-- C11: `GetReplaceNum` returns 0 when `Extra` is nil and exactly
`Extra.ReplaceNum` when `Extra` is non-nil, whatever sub-variants are
populated. -/
theorem C11_GetReplaceNum_reads_counter (a : BuildTxArgs) :
    (a.Extra = none → BuildTxArgs.GetReplaceNum (some a) = Outcome.ok 0) ∧
    (∀ x, a.Extra = some x → BuildTxArgs.GetReplaceNum (some a) = Outcome.ok x.ReplaceNum) := by
  refine ⟨fun hx => ?_, fun x hx => ?_⟩
  · simp [BuildTxArgs.GetReplaceNum, hx]
  · simp [BuildTxArgs.GetReplaceNum, hx]

/-- C11 witness: `fullArgs` stores `ReplaceNum = 3` and reads 3; `noExtraArgs`
reads 0. -/
theorem C11_GetReplaceNum_reads_counter_witness :
    BuildTxArgs.GetReplaceNum (some noExtraArgs) = Outcome.ok 0 ∧
    BuildTxArgs.GetReplaceNum (some fullArgs) = Outcome.ok 3 :=
  ⟨(C11_GetReplaceNum_reads_counter noExtraArgs).1 rfl,
   (C11_GetReplaceNum_reads_counter fullArgs).2 _ rfl⟩

/-- C12: with extras present, `SetReplaceNum(n)` leaves the receiver equal to
the one before with only `Extra.ReplaceNum` replaced by `n`, and
`GetReplaceNum()` then returns `n`; with nil extras the receiver is unchanged
and `GetReplaceNum()` still returns 0. -/
theorem C12_SetReplaceNum_overwrites (a : BuildTxArgs) (n : Nat) :
    (∀ x, a.Extra = some x →
      BuildTxArgs.SetReplaceNum (some a) n = Outcome.ok (some
        { a with Extra := some { x with ReplaceNum := n } }) ∧
      setThenGetReplaceNum (some a) n = Outcome.ok n) ∧
    (a.Extra = none →
      BuildTxArgs.SetReplaceNum (some a) n = Outcome.ok (some a) ∧
      setThenGetReplaceNum (some a) n = Outcome.ok 0) := by
  refine ⟨fun x hx => ?_, fun hx => ?_⟩
  · have hset : BuildTxArgs.SetReplaceNum (some a) n = Outcome.ok (some
        { a with Extra := some { x with ReplaceNum := n } }) := by
      simp [BuildTxArgs.SetReplaceNum, hx]
    refine ⟨hset, ?_⟩
    simp [setThenGetReplaceNum, hset, BuildTxArgs.GetReplaceNum]
  · have hset : BuildTxArgs.SetReplaceNum (some a) n = Outcome.ok (some a) := by
      simp [BuildTxArgs.SetReplaceNum, hx]
    refine ⟨hset, ?_⟩
    simp [setThenGetReplaceNum, hset, BuildTxArgs.GetReplaceNum, hx]

/-- C12 witness: on `btcOnlyArgs` the counter 4 becomes `2 ^ 64 - 1` and
nothing else changes; on `noExtraArgs` nothing changes. -/
theorem C12_SetReplaceNum_overwrites_witness :
    (BuildTxArgs.SetReplaceNum (some btcOnlyArgs) (2 ^ 64 - 1) = Outcome.ok (some
        { From := "b",
          Extra := some { ReplaceNum := 2 ^ 64 - 1, BtcExtra := some { ChangeAddress := some "c" } } }) ∧
      setThenGetReplaceNum (some btcOnlyArgs) (2 ^ 64 - 1) = Outcome.ok (2 ^ 64 - 1)) ∧
    (BuildTxArgs.SetReplaceNum (some noExtraArgs) 7 = Outcome.ok (some noExtraArgs) ∧
      setThenGetReplaceNum (some noExtraArgs) 7 = Outcome.ok 0) :=
  ⟨(C12_SetReplaceNum_overwrites btcOnlyArgs (2 ^ 64 - 1)).1 _ rfl,
   (C12_SetReplaceNum_overwrites noExtraArgs 7).2 rfl⟩

/-! ## Setters and getters across all states -/

/-- C17: with extras present and at least one of `EthExtra`, `RippleExtra`,
`TerraExtra` non-nil, in any combination, `GetTxNonce()` after `SetTxNonce(N)`
returns `N` when the first non-nil one in the order Eth, Ripple, Terra is
`EthExtra` or `TerraExtra`, and `N mod 2 ^ 32` when it is `RippleExtra`; hence
`N` whenever `N < 2 ^ 32`. -/
theorem C17_set_get_nonce_all_states (a : BuildTxArgs) (x : AllExtras) (N : Nat)
    (_hN : N < 2 ^ 64) (hx : a.Extra = some x)
    (hsome : x.EthExtra.isSome = true ∨ x.RippleExtra.isSome = true ∨
      x.TerraExtra.isSome = true) :
    (x.EthExtra.isSome = true → setThenGetNonce (some a) N = Outcome.ok N) ∧
    (x.EthExtra = none → x.RippleExtra.isSome = true →
      setThenGetNonce (some a) N = Outcome.ok (N % 2 ^ 32)) ∧
    (x.EthExtra = none → x.RippleExtra = none → x.TerraExtra.isSome = true →
      setThenGetNonce (some a) N = Outcome.ok N) ∧
    (N < 2 ^ 32 → setThenGetNonce (some a) N = Outcome.ok N) := by
  have h1 : x.EthExtra.isSome = true → setThenGetNonce (some a) N = Outcome.ok N := by
    intro he
    obtain ⟨e, he⟩ := Option.isSome_iff_exists.mp he
    simp [setThenGetNonce, BuildTxArgs.SetTxNonce, BuildTxArgs.GetTxNonce, hx, he]
  have h2 : x.EthExtra = none → x.RippleExtra.isSome = true →
      setThenGetNonce (some a) N = Outcome.ok (N % 2 ^ 32) := by
    intro he hr
    obtain ⟨r, hr⟩ := Option.isSome_iff_exists.mp hr
    simp [setThenGetNonce, BuildTxArgs.SetTxNonce, BuildTxArgs.GetTxNonce, hx, he, hr]
  have h3 : x.EthExtra = none → x.RippleExtra = none → x.TerraExtra.isSome = true →
      setThenGetNonce (some a) N = Outcome.ok N := by
    intro he hr ht
    obtain ⟨t, ht⟩ := Option.isSome_iff_exists.mp ht
    simp [setThenGetNonce, BuildTxArgs.SetTxNonce, BuildTxArgs.GetTxNonce, hx, he, hr, ht]
  refine ⟨h1, h2, h3, fun hlt => ?_⟩
  cases he : x.EthExtra with
  | some e => exact h1 (by simp [he])
  | none =>
    cases hr : x.RippleExtra with
    | some r =>
      rw [h2 he (by simp [hr]), Nat.mod_eq_of_lt hlt]
    | none =>
      cases ht : x.TerraExtra with
      | some t => exact h3 he hr (by simp [ht])
      | none => simp [he, hr, ht] at hsome

/-- C17 witness: on the multi-variant `mixedArgs` the first non-nil sub-variant
is `EthExtra`, so the nonce `2 ^ 32 + 1` is read back in full although a
`RippleExtra` is present too. -/
theorem C17_set_get_nonce_all_states_witness :
    setThenGetNonce (some mixedArgs) (2 ^ 32 + 1) = Outcome.ok (2 ^ 32 + 1) :=
  (C17_set_get_nonce_all_states mixedArgs _ (2 ^ 32 + 1) (by decide) rfl (Or.inl rfl)).1 rfl

/-- C18: each of `SetTxNonce`, `SetTxGasPrice`, `SetReplaceNum`, and hence
every sequence of setter calls, returns normally and changes neither whether
`Extra` is nil nor which of `BtcExtra`, `EthExtra`, `RippleExtra`, `TerraExtra`
are nil; so when exactly one sub-variant pointer is non-nil before the calls,
exactly that same one is non-nil afterwards. -/
theorem C18_setters_preserve_shape (args : Ptr BuildTxArgs) (calls : List SetterCall)
    (nonce replaceNum : Nat) (gasPrice : Ptr Int) :
    (∃ args1, BuildTxArgs.SetTxNonce args nonce = Outcome.ok args1 ∧
      BuildTxArgs.shape args1 = BuildTxArgs.shape args) ∧
    (∃ args1, BuildTxArgs.SetTxGasPrice args gasPrice = Outcome.ok args1 ∧
      BuildTxArgs.shape args1 = BuildTxArgs.shape args) ∧
    (∃ args1, BuildTxArgs.SetReplaceNum args replaceNum = Outcome.ok args1 ∧
      BuildTxArgs.shape args1 = BuildTxArgs.shape args) ∧
    (∃ args1, runSetters calls args = Outcome.ok args1 ∧
      BuildTxArgs.shape args1 = BuildTxArgs.shape args ∧
      ∀ a x, args = some a → a.Extra = some x → x.populated = 1 →
        ∃ a1 x1, args1 = some a1 ∧ a1.Extra = some x1 ∧ x1.populated = 1 ∧
          x1.BtcExtra.isSome = x.BtcExtra.isSome ∧ x1.EthExtra.isSome = x.EthExtra.isSome ∧
          x1.RippleExtra.isSome = x.RippleExtra.isSome ∧
          x1.TerraExtra.isSome = x.TerraExtra.isSome) := by
  refine ⟨SetTxNonce_shape args nonce, SetTxGasPrice_shape args gasPrice,
    SetReplaceNum_shape args replaceNum, ?_⟩
  obtain ⟨args1, hrun, hshape⟩ := runSetters_shape calls args
  refine ⟨args1, hrun, hshape, ?_⟩
  intro a x ha hx hone
  subst ha
  cases args1 with
  | none => simp [BuildTxArgs.shape] at hshape
  | some a1 =>
    cases hx1 : a1.Extra with
    | none => simp [BuildTxArgs.shape, hx, hx1] at hshape
    | some x1 =>
      simp only [BuildTxArgs.shape, Option.map_some', hx, hx1, AllExtras.shape,
        Option.some.injEq, Prod.mk.injEq] at hshape
      obtain ⟨hb, he, hr, ht⟩ := hshape
      refine ⟨a1, x1, rfl, hx1, ?_, hb, he, hr, ht⟩
      simpa [AllExtras.populated, hb, he, hr, ht] using hone

/-- C18 witness: after the six calls of `sampleCalls` on `rippleOnlyArgs`,
`RippleExtra` is still the one non-nil sub-variant. -/
theorem C18_setters_preserve_shape_witness :
    ∃ args1, runSetters sampleCalls (some rippleOnlyArgs) = Outcome.ok args1 ∧
      BuildTxArgs.shape args1 = some (some (false, false, true, false)) := by
  obtain ⟨args1, hrun, hshape, -⟩ :=
    (C18_setters_preserve_shape (some rippleOnlyArgs) sampleCalls 0 0 none).2.2.2
  exact ⟨args1, hrun, hshape.trans rfl⟩

/-- C19: any two of `SetTxNonce(N)`, `SetTxGasPrice(p)`, `SetReplaceNum(n)`
give the same result in either order, and a setter never changes what the
getters of the other two quantities return. -/
theorem C19_setters_commute (args : Ptr BuildTxArgs) (N n : Nat) (p : Ptr Int) :
    ((BuildTxArgs.SetTxNonce args N >>= fun r => BuildTxArgs.SetTxGasPrice r p) =
      (BuildTxArgs.SetTxGasPrice args p >>= fun r => BuildTxArgs.SetTxNonce r N)) ∧
    ((BuildTxArgs.SetTxNonce args N >>= fun r => BuildTxArgs.SetReplaceNum r n) =
      (BuildTxArgs.SetReplaceNum args n >>= fun r => BuildTxArgs.SetTxNonce r N)) ∧
    ((BuildTxArgs.SetTxGasPrice args p >>= fun r => BuildTxArgs.SetReplaceNum r n) =
      (BuildTxArgs.SetReplaceNum args n >>= fun r => BuildTxArgs.SetTxGasPrice r p)) ∧
    (BuildTxArgs.SetTxGasPrice args p >>= BuildTxArgs.GetTxNonce) =
      BuildTxArgs.GetTxNonce args ∧
    (BuildTxArgs.SetReplaceNum args n >>= BuildTxArgs.GetTxNonce) =
      BuildTxArgs.GetTxNonce args ∧
    (BuildTxArgs.SetTxNonce args N >>= BuildTxArgs.GetTxGasPrice) =
      BuildTxArgs.GetTxGasPrice args ∧
    (BuildTxArgs.SetReplaceNum args n >>= BuildTxArgs.GetTxGasPrice) =
      BuildTxArgs.GetTxGasPrice args ∧
    (BuildTxArgs.SetTxNonce args N >>= BuildTxArgs.GetReplaceNum) =
      BuildTxArgs.GetReplaceNum args ∧
    (BuildTxArgs.SetTxGasPrice args p >>= BuildTxArgs.GetReplaceNum) =
      BuildTxArgs.GetReplaceNum args :=
  ⟨SetTxNonce_comm_SetTxGasPrice args N p, SetTxNonce_comm_SetReplaceNum args N n,
    SetTxGasPrice_comm_SetReplaceNum args p n, GetTxNonce_after_SetTxGasPrice args p,
    GetTxNonce_after_SetReplaceNum args n, GetTxGasPrice_after_SetTxNonce args N,
    GetTxGasPrice_after_SetReplaceNum args n, GetReplaceNum_after_SetTxNonce args N,
    GetReplaceNum_after_SetTxGasPrice args p⟩

/-- C19 on `mixedArgs`: nonce then price and price then nonce end in the same
state, with both `EthExtra.Nonce` and `EthExtra.GasPrice` written. -/
theorem C19_setters_commute_witness :
    (BuildTxArgs.SetTxNonce (some mixedArgs) 6 >>= fun r => BuildTxArgs.SetTxGasPrice r (some 11)) =
      (BuildTxArgs.SetTxGasPrice (some mixedArgs) (some 11) >>= fun r =>
        BuildTxArgs.SetTxNonce r 6) :=
  (C19_setters_commute (some mixedArgs) 6 0 (some 11)).1

/-! ## Enum names -/

/-- C13: for every `SwapType` ordinal `s > 2` and every `SwapTxType` ordinal
`t > 2`, `String()` returns `"unknown swap type "`, respectively
`"unknown swaptx type "`, followed by the ordinal in decimal: a non-empty run
of digits that reads back as the ordinal. -/
theorem C13_enum_names_ordinal_fallback (s : SwapType) (t : SwapTxType)
    (hs : 2 < s) (_hs32 : s < 2 ^ 32) (ht : 2 < t) (_ht32 : t < 2 ^ 32) :
    SwapType.String s = "unknown swap type " ++ Nat.repr s ∧
    SwapTxType.String t = "unknown swaptx type " ++ Nat.repr t ∧
    isDecimal (Nat.repr s).data = true ∧ decimalValue (Nat.repr s).data = s ∧
    isDecimal (Nat.repr t).data = true ∧ decimalValue (Nat.repr t).data = t := by
  refine ⟨?_, ?_, isDecimal_repr s, decimalValue_repr s, isDecimal_repr t, decimalValue_repr t⟩
  · have h0 : s ≠ 0 := Nat.ne_of_gt (Nat.lt_trans (by decide) hs)
    have h1 : s ≠ 1 := Nat.ne_of_gt (Nat.lt_trans (by decide) hs)
    have h2 : s ≠ 2 := Nat.ne_of_gt hs
    simp [SwapType.String, NoSwapType, SwapinType, SwapoutType, sprintfUint, h0, h1, h2]
  · have h0 : t ≠ 0 := Nat.ne_of_gt (Nat.lt_trans (by decide) ht)
    have h1 : t ≠ 1 := Nat.ne_of_gt (Nat.lt_trans (by decide) ht)
    have h2 : t ≠ 2 := Nat.ne_of_gt ht
    simp [SwapTxType.String, SwapinTx, SwapoutTx, P2shSwapinTx, sprintfUint, h0, h1, h2]

/-- C13 witness: the ordinals 3 and `2 ^ 32 - 1`. -/
theorem C13_enum_names_ordinal_fallback_witness :
    SwapType.String 3 = "unknown swap type " ++ Nat.repr 3 ∧
    SwapTxType.String (2 ^ 32 - 1) = "unknown swaptx type " ++ Nat.repr (2 ^ 32 - 1) ∧
    isDecimal (Nat.repr 3).data = true ∧ decimalValue (Nat.repr 3).data = 3 ∧
    isDecimal (Nat.repr (2 ^ 32 - 1)).data = true ∧
    decimalValue (Nat.repr (2 ^ 32 - 1)).data = 2 ^ 32 - 1 :=
  C13_enum_names_ordinal_fallback 3 (2 ^ 32 - 1) (by decide) (by decide) (by decide) (by decide)

/-- C20: `SwapType.String` maps 0, 1, 2 to `noswap`, `swapin`, `swapout`,
`SwapTxType.String` maps 0, 1, 2 to `swapintx`, `swapouttx`, `p2shswapintx`,
both are injective, and `IsSwapin()` is true exactly when the swap type's
`String()` is `swapin`. -/
theorem C20_enum_names_identify_ordinal :
    SwapType.String 0 = "noswap" ∧ SwapType.String 1 = "swapin" ∧
    SwapType.String 2 = "swapout" ∧
    SwapTxType.String 0 = "swapintx" ∧ SwapTxType.String 1 = "swapouttx" ∧
    SwapTxType.String 2 = "p2shswapintx" ∧
    (∀ s t : SwapType, SwapType.String s = SwapType.String t → s = t) ∧
    (∀ s t : SwapTxType, SwapTxType.String s = SwapTxType.String t → s = t) ∧
    (∀ info : SwapInfo,
      SwapInfo.IsSwapin (some info) = Outcome.ok true ↔
        SwapType.String info.SwapType = "swapin") ∧
    (∀ info : SwapInfo, ∃ b, SwapInfo.IsSwapin (some info) = Outcome.ok b) := by
  refine ⟨rfl, rfl, rfl, rfl, rfl, rfl, SwapType_String_injective,
    SwapTxType_String_injective, ?_, ?_⟩
  · intro info
    have h1 : SwapType.String 1 = "swapin" := rfl
    constructor
    · intro h
      have hs : info.SwapType = 1 := by
        simpa [SwapInfo.IsSwapin, SwapinType] using h
      rw [hs, h1]
    · intro h
      have hs : info.SwapType = 1 := SwapType_String_injective _ _ (h.trans h1.symm)
      simp [SwapInfo.IsSwapin, SwapinType, hs]
  · intro info
    exact ⟨_, rfl⟩

/-- C20 on concrete values: `fullArgs` is a swap-in, and the out-of-range
ordinals 3 and 30 have different names. -/
theorem C20_enum_names_identify_ordinal_witness :
    SwapInfo.IsSwapin (some fullArgs.SwapInfo) = Outcome.ok true ∧
    SwapType.String 3 ≠ SwapType.String 30 := by
  obtain ⟨-, -, -, -, -, -, hinj, -, hswap, -⟩ := C20_enum_names_identify_ordinal
  exact ⟨(hswap fullArgs.SwapInfo).mpr rfl, fun h => absurd (hinj 3 30 h) (by decide)⟩

/-! ## Encoded form -/

/-- C14, on the code: the zero `BuildTxArgs`, whose embedded `SwapInfo` is the
zero struct, encodes as an object with the one member `swapInfo`, an empty
object; indeed the `swapInfo` key is present for every value, because a struct
value is never empty for `omitempty`. Every other field tagged `omitempty` in
`SwapInfo`, `BuildTxArgs`, `AllExtras`, `EthExtraArgs`, `RippleExtra`,
`TerraExtra`, `BtcExtraArgs` and `TxStatus` is left out when it holds its zero
value. -/
theorem C14_omitempty_except_swapInfo (a : BuildTxArgs) (s : SwapInfo) (x : AllExtras)
    (e : EthExtraArgs) (r : RippleExtra) (t : TerraExtra) (b : BtcExtraArgs) (st : TxStatus) :
    (BuildTxArgs.marshal {} = Json.obj [("swapInfo", Json.obj [])] ∧
      "swapInfo" ∈ (BuildTxArgs.marshal {}).keys ∧
      "swapInfo" ∈ (BuildTxArgs.marshal a).keys) ∧
    ((a.From = "" → "from" ∉ (BuildTxArgs.marshal a).keys) ∧
      (a.To = "" → "to" ∉ (BuildTxArgs.marshal a).keys) ∧
      (a.OriginFrom = "" → "originFrom" ∉ (BuildTxArgs.marshal a).keys) ∧
      (a.OriginTxTo = "" → "originTxTo" ∉ (BuildTxArgs.marshal a).keys) ∧
      (a.Value = none → "value" ∉ (BuildTxArgs.marshal a).keys) ∧
      (a.OriginValue = none → "originValue" ∉ (BuildTxArgs.marshal a).keys) ∧
      (a.SwapValue = none → "swapvalue" ∉ (BuildTxArgs.marshal a).keys) ∧
      (a.Memo = "" → "memo" ∉ (BuildTxArgs.marshal a).keys) ∧
      (a.Input = none → "input" ∉ (BuildTxArgs.marshal a).keys) ∧
      (a.Extra = none → "extra" ∉ (BuildTxArgs.marshal a).keys)) ∧
    ((s.PairID = "" → "pairid" ∉ (encodeStruct SwapInfo.fields s).json.keys) ∧
      (s.SwapID = "" → "swapid" ∉ (encodeStruct SwapInfo.fields s).json.keys) ∧
      (s.SwapType = 0 → "swaptype" ∉ (encodeStruct SwapInfo.fields s).json.keys) ∧
      (s.TxType = 0 → "txtype" ∉ (encodeStruct SwapInfo.fields s).json.keys) ∧
      (s.Bind = "" → "bind" ∉ (encodeStruct SwapInfo.fields s).json.keys) ∧
      (s.Identifier = "" → "identifier" ∉ (encodeStruct SwapInfo.fields s).json.keys) ∧
      (s.Reswapping = false → "reswapping" ∉ (encodeStruct SwapInfo.fields s).json.keys)) ∧
    ((x.ReplaceNum = 0 → "replaceNum" ∉ (encodeStruct AllExtras.fields x).json.keys) ∧
      (x.BtcExtra = none → "btcExtra" ∉ (encodeStruct AllExtras.fields x).json.keys) ∧
      (x.EthExtra = none → "ethExtra" ∉ (encodeStruct AllExtras.fields x).json.keys) ∧
      (x.RippleExtra = none → "rippleExtra" ∉ (encodeStruct AllExtras.fields x).json.keys) ∧
      (x.TerraExtra = none → "terraExtra" ∉ (encodeStruct AllExtras.fields x).json.keys)) ∧
    ((e.Gas = none → "gas" ∉ (encodeStruct EthExtraArgs.fields e).json.keys) ∧
      (e.GasPrice = none → "gasPrice" ∉ (encodeStruct EthExtraArgs.fields e).json.keys) ∧
      (e.GasTipCap = none → "gasTipCap" ∉ (encodeStruct EthExtraArgs.fields e).json.keys) ∧
      (e.GasFeeCap = none → "gasFeeCap" ∉ (encodeStruct EthExtraArgs.fields e).json.keys) ∧
      (e.Nonce = none → "nonce" ∉ (encodeStruct EthExtraArgs.fields e).json.keys)) ∧
    ((r.Sequence = none → "sequence" ∉ (encodeStruct RippleExtra.fields r).json.keys) ∧
      (r.Fee = none → "fee" ∉ (encodeStruct RippleExtra.fields r).json.keys) ∧
      (t.Sequence = none → "sequence" ∉ (encodeStruct TerraExtra.fields t).json.keys) ∧
      (t.Fees = none → "fees" ∉ (encodeStruct TerraExtra.fields t).json.keys) ∧
      (t.Gas = none → "gas" ∉ (encodeStruct TerraExtra.fields t).json.keys)) ∧
    ((b.RelayFeePerKb = none → "relayFeePerKb" ∉ (BtcExtraArgs.marshal b).keys) ∧
      (b.PreviousOutPoints = [] → "previousOutPoints" ∉ (BtcExtraArgs.marshal b).keys) ∧
      (st.Receipt = none → "receipt" ∉ (encodeStruct TxStatus.fields st).json.keys)) :=
  ⟨⟨rfl, swapInfo_key_present {}, swapInfo_key_present a⟩, BuildTxArgs_omitempty a,
    SwapInfo_omitempty s, AllExtras_omitempty x, EthExtraArgs_omitempty e,
    RippleTerra_omitempty r t, BtcTxStatus_omitempty b st⟩

/-- C15: two `BtcExtraArgs` that differ only in `ChangeAddress` have the same
encoding, and so have two `BuildTxArgs` that differ only in the
`ChangeAddress` of their `BtcExtra`; the keys of an encoded `BtcExtraArgs` are
among `relayFeePerKb` and `previousOutPoints`, so none stands for
`ChangeAddress`. -/
theorem C15_encoding_independent_of_ChangeAddress (b1 b2 : BtcExtraArgs) (a : BuildTxArgs)
    (x : AllExtras) (hfee : b1.RelayFeePerKb = b2.RelayFeePerKb)
    (hout : b1.PreviousOutPoints = b2.PreviousOutPoints) :
    BtcExtraArgs.marshal b1 = BtcExtraArgs.marshal b2 ∧
    BuildTxArgs.marshal { a with Extra := some { x with BtcExtra := some b1 } } =
      BuildTxArgs.marshal { a with Extra := some { x with BtcExtra := some b2 } } ∧
    (∀ k ∈ (BtcExtraArgs.marshal b1).keys, k = "relayFeePerKb" ∨ k = "previousOutPoints") ∧
    "ChangeAddress" ∉ (BtcExtraArgs.marshal b1).keys ∧
    "changeAddress" ∉ (BtcExtraArgs.marshal b1).keys ∧
    "-" ∉ (BtcExtraArgs.marshal b1).keys := by
  have hb := BtcExtraArgs_marshal_congr b1 b2 hfee hout
  refine ⟨?_, ?_, BtcExtraArgs_keys b1, ?_, ?_, ?_⟩
  · simp [BtcExtraArgs.marshal, hb]
  · have hm : members (List.map (fun f => (f.tag, f.get b1)) BtcExtraArgs.fields) =
        members (List.map (fun f => (f.tag, f.get b2)) BtcExtraArgs.fields) := by
      simpa [encodeStruct] using hb
    simp [BuildTxArgs.marshal, encodeStruct, BuildTxArgs.fields, AllExtras.fields, field,
      encPtr, hm]
  · intro h
    rcases BtcExtraArgs_keys b1 _ h with h1 | h1 <;> simp at h1
  · intro h
    rcases BtcExtraArgs_keys b1 _ h with h1 | h1 <;> simp at h1
  · intro h
    rcases BtcExtraArgs_keys b1 _ h with h1 | h1 <;> simp at h1

/-- C15 witness: `btcExtraSample` with and without its change address, alone
and inside `mixedArgs`. -/
theorem C15_encoding_independent_of_ChangeAddress_witness :
    BtcExtraArgs.marshal btcExtraSample =
      BtcExtraArgs.marshal { btcExtraSample with ChangeAddress := none } ∧
    BtcExtraArgs.marshal btcExtraSample = Json.obj
      [("relayFeePerKb", Json.num 2000),
       ("previousOutPoints",
        Json.arr [Json.obj [("hash", Json.str "h"), ("index", Json.num 1)], Json.null])] ∧
    BuildTxArgs.marshal { mixedArgs with Extra := some { BtcExtra := some btcExtraSample } } =
      BuildTxArgs.marshal { mixedArgs with
        Extra := some { BtcExtra := some { btcExtraSample with ChangeAddress := none } } } :=
  have h := C15_encoding_independent_of_ChangeAddress btcExtraSample
    { btcExtraSample with ChangeAddress := none } mixedArgs {} rfl rfl
  ⟨h.1, rfl, h.2.1⟩

/-- C16: a `BuildTxArgs` whose extras hold only an `EthExtra`, encoded and
then decoded into a fresh `BuildTxArgs`, comes back with extras whose
`RippleExtra`, `TerraExtra` and `BtcExtra` are nil and whose `EthExtra` is
non-nil. The decoded value is the encoded one, except that an `Input` pointing
at the nil slice comes back as the nil pointer. -/
theorem C16_roundtrip_keeps_absent_variants (a : BuildTxArgs) (x : AllExtras)
    (e : EthExtraArgs) (hwt : a.wellTyped = true) (hx : a.Extra = some x)
    (he : x.EthExtra = some e) (hr : x.RippleExtra = none) (ht : x.TerraExtra = none)
    (hb : x.BtcExtra = none) :
    BuildTxArgs.unmarshal (BuildTxArgs.marshal a) =
      some { a with Input := if a.Input = some none then none else a.Input } ∧
    ∃ a1 x1, BuildTxArgs.unmarshal (BuildTxArgs.marshal a) = some a1 ∧
      a1.Extra = some x1 ∧ x1.RippleExtra = none ∧ x1.TerraExtra = none ∧
      x1.BtcExtra = none ∧ x1.EthExtra.isSome = true := by
  have hrt : BuildTxArgs.unmarshal (BuildTxArgs.marshal a) =
      some { a with Input := if a.Input = some none then none else a.Input } := by
    apply BuildTxArgs_roundtrip a hwt
    intro y hy
    have hyx : y = x := Option.some.inj (hy.symm.trans hx)
    subst hyx
    exact ⟨hb, hr, ht⟩
  exact ⟨hrt, _, x, hrt, hx, hr, ht, hb, by simp [he]⟩

/-- C16 witness: `ethNilInputArgs`, whose `Input` points at the nil slice,
encodes to a document with `"input": null` and an `extra` object with the
members `replaceNum` and `ethExtra` only; it decodes to `ethOnlyArgs`, whose
`Input` is the nil pointer. -/
theorem C16_roundtrip_keeps_absent_variants_witness :
    BuildTxArgs.marshal ethNilInputArgs = Json.obj
      [("swapInfo", Json.obj []), ("from", Json.str "0xa"), ("to", Json.str "0xb"),
       ("value", Json.num 5), ("input", Json.null),
       ("extra", Json.obj
          [("replaceNum", Json.num 1),
           ("ethExtra", Json.obj [("gasPrice", Json.num 7), ("nonce", Json.num 9)])])] ∧
    BuildTxArgs.unmarshal (BuildTxArgs.marshal ethNilInputArgs) = some ethOnlyArgs ∧
    ∃ a1 x1, BuildTxArgs.unmarshal (BuildTxArgs.marshal ethNilInputArgs) = some a1 ∧
      a1.Extra = some x1 ∧ x1.RippleExtra = none ∧ x1.TerraExtra = none ∧
      x1.BtcExtra = none ∧ x1.EthExtra.isSome = true :=
  have h := C16_roundtrip_keeps_absent_variants ethNilInputArgs
    { ReplaceNum := 1, EthExtra := some { GasPrice := some 7, Nonce := some 9 } }
    { GasPrice := some 7, Nonce := some 9 } (by decide) rfl rfl rfl rfl rfl
  ⟨rfl, h.1, h.2⟩

end tokens
